import Mathlib

/-!
# Verification of the YOLO detection-head export adapters

Shallow embedding of `tools/modules/heads.py` and `yolo/detect_head.py`.

Tensors are modelled as curried real-valued functions over `Fin`-indexed
dimensions (`T4 b c h w` is a `(b, c, h, w)` tensor in BCHW layout, `T3` a
rank-3 tensor).  `view`/`reshape`/`permute` become index arithmetic on the
row-major layout, `torch.cat` along a dimension becomes an explicit
concatenation function on index ranges, and the learned sub-layers copied
from the wrapped heads (`stems`, `cv2`, `cv3`, `dfl`, ...) are opaque
function-valued fields of the adapter structures.  Floating point is
idealised as `ℝ`; `torch.sigmoid`, `softmax` and `exp` are the exact real
functions.

Python in-place effects are made explicit: every `forward` returns, besides
its output tensors, the final contents of the caller's input list `x`
(which the source overwrites element-wise) and the updated adapter instance
(the source occasionally assigns cached attributes such as `self.grid[i]`
or `self.anchors`/`self.strides`/`self.shape`).
-/

open scoped BigOperators

namespace Heads

/-- Rank-4 tensor (batch, channel, height, width), real entries. -/
abbrev T4 (b c h w : ℕ) := Fin b → Fin c → Fin h → Fin w → ℝ

/-- Rank-3 tensor (batch, channel, anchor position). -/
abbrev T3 (b c a : ℕ) := Fin b → Fin c → Fin a → ℝ

/-- Rank-2 tensor (batch, feature). -/
abbrev T2 (b n : ℕ) := Fin b → Fin n → ℝ

/-- `torch.sigmoid`: the logistic function `1 / (1 + exp (-t))`. -/
noncomputable def sigmoid (t : ℝ) : ℝ := 1 / (1 + Real.exp (-t))

/-- `F.softmax` along a `Fin n` axis: `exp (z r) / ∑ s, exp (z s)`. -/
noncomputable def softmax {n : ℕ} (z : Fin n → ℝ) (r : Fin n) : ℝ :=
  Real.exp (z r) / ∑ s, Real.exp (z s)

/-- `tensor.max` along a `Fin n` axis (`0` junk value for an empty axis,
which `torch` rejects at runtime). -/
noncomputable def maxOver {n : ℕ} (f : Fin n → ℝ) : ℝ :=
  if h : 0 < n then Finset.univ.sup' ⟨⟨0, h⟩, Finset.mem_univ _⟩ f else 0

/-- Row-major pairing: index of `(i, j)` in a flattened `(m, n)` block. -/
def fpair {m n : ℕ} (i : Fin m) (j : Fin n) : Fin (m * n) :=
  ⟨(i : ℕ) * n + j, by
    have hi := i.isLt
    have hj := j.isLt
    calc (i : ℕ) * n + j < (i : ℕ) * n + n := by omega
    _ = ((i : ℕ) + 1) * n := by ring
    _ ≤ m * n := Nat.mul_le_mul_right n hi⟩

/-- Row-major unpairing: split a flat `(m * n)` index into `(i, j)`. -/
def funpair {m n : ℕ} (g : Fin (m * n)) : Fin m × Fin n :=
  have hn : 0 < n := by
    by_contra hc
    have h0 : n = 0 := by omega
    subst h0
    have := g.isLt
    simp at this
  (⟨(g : ℕ) / n, (Nat.div_lt_iff_lt_mul hn).mpr g.isLt⟩,
   ⟨(g : ℕ) % n, Nat.mod_lt _ hn⟩)

theorem funpair_fpair {m n : ℕ} (i : Fin m) (j : Fin n) :
    funpair (fpair i j) = (i, j) := by
  have hj := j.isLt
  have hd : ((i : ℕ) * n + (j : ℕ)) / n = i := by
    rw [Nat.add_comm, Nat.add_mul_div_right _ _ (by omega : 0 < n),
      Nat.div_eq_of_lt hj, Nat.zero_add]
  have hm : ((i : ℕ) * n + (j : ℕ)) % n = j := by
    rw [Nat.add_comm, Nat.add_mul_mod_self_right, Nat.mod_eq_of_lt hj]
  simp only [funpair, fpair, Prod.mk.injEq]
  constructor
  · apply Fin.ext
    simpa using hd
  · apply Fin.ext
    simpa using hm

/-- Concatenation of two rank-4 tensors along the channel dimension
(`torch.cat(..., 1)`). -/
def catC {b c1 c2 h w : ℕ} (t : T4 b c1 h w) (u : T4 b c2 h w) :
    T4 b (c1 + c2) h w :=
  fun bi c yy xx =>
    if hc : (c : ℕ) < c1 then t bi ⟨c, hc⟩ yy xx
    else u bi ⟨(c : ℕ) - c1, by have := c.isLt; omega⟩ yy xx

/-- Concatenation of two rank-3 tensors along the channel dimension. -/
def catC3 {b c1 c2 a : ℕ} (t : T3 b c1 a) (u : T3 b c2 a) :
    T3 b (c1 + c2) a :=
  fun bi c g =>
    if hc : (c : ℕ) < c1 then t bi ⟨c, hc⟩ g
    else u bi ⟨(c : ℕ) - c1, by have := c.isLt; omega⟩ g

/-- Flatten the spatial dimensions of a rank-4 tensor row-major
(`tensor.view(b, c, -1)`). -/
def flatT4 {b c h w : ℕ} (t : T4 b c h w) : T3 b c (h * w) :=
  fun bi ci p => t bi ci (funpair p).1 (funpair p).2

/-- Cumulative length of the first `k` levels: `accL sz k = sz 0 + ... + sz (k-1)`. -/
def accL (sz : ℕ → ℕ) : ℕ → ℕ
  | 0 => 0
  | k + 1 => accL sz k + sz k

theorem accL_eq_sum (sz : ℕ → ℕ) (n : ℕ) :
    accL sz n = ∑ i : Fin n, sz i := by
  induction n with
  | zero => simp [accL]
  | succ k ih => rw [Fin.sum_univ_castSucc]; simp [accL, ih]

theorem accL_le_of_lt (sz : ℕ → ℕ) {i k : ℕ} (h : i < k) :
    accL sz i + sz i ≤ accL sz k := by
  induction k with
  | zero => omega
  | succ k ih =>
    rcases Nat.lt_succ_iff_lt_or_eq.mp h with h' | h'
    · have := ih h'
      simp only [accL]; omega
    · subst h'; simp [accL]

/-- Concatenation of a family of vectors, level by level
(`torch.cat([...])` along one dimension). -/
def catFam {β : Type} (sz : ℕ → ℕ) (f : (k : ℕ) → Fin (sz k) → β) :
    (k : ℕ) → Fin (accL sz k) → β
  | 0, g => absurd g.isLt (by simp [accL])
  | k + 1, g =>
    if hg : (g : ℕ) < accL sz k then catFam sz f k ⟨g, hg⟩
    else f k ⟨(g : ℕ) - accL sz k, by
      have := g.isLt; simp only [accL] at this; omega⟩

theorem catFam_apply {β : Type} (sz : ℕ → ℕ) (f : (k : ℕ) → Fin (sz k) → β)
    {i k : ℕ} (hik : i < k) (r : Fin (sz i))
    (hb : accL sz i + (r : ℕ) < accL sz k) :
    catFam sz f k ⟨accL sz i + (r : ℕ), hb⟩ = f i r := by
  induction k with
  | zero => omega
  | succ k ih =>
    rcases Nat.lt_succ_iff_lt_or_eq.mp hik with h' | h'
    · have hlt : accL sz i + (r : ℕ) < accL sz k := by
        have := accL_le_of_lt sz h'
        have := r.isLt
        omega
      simp only [catFam, dif_pos hlt]
      exact ih h' hlt
    · subst h'
      have hge : ¬ (accL sz i + (r : ℕ) < accL sz i) := by omega
      simp only [catFam, dif_neg hge]
      congr 1
      apply Fin.ext
      simp

/-- Extend a `Fin nl`-indexed family of level data to all of `ℕ`
(with a default beyond `nl`); models a Python list of per-level tensors. -/
def extL {β : Type} {nl : ℕ} (sz : ℕ → ℕ) (d : β)
    (f : (i : Fin nl) → Fin (sz i) → β) (k : ℕ) : Fin (sz k) → β :=
  if hk : k < nl then f ⟨k, hk⟩ else fun _ => d

/-- Length of the concatenation of the per-level flattened spatial dims. -/
def totA (nl : ℕ) (sz : ℕ → ℕ) : ℕ := accL sz nl

/-- Global flat index of row `r` of level `i` inside the level concatenation:
level `i` starts at offset `sz 0 + ... + sz (i-1)`. -/
def gidx {nl : ℕ} (sz : ℕ → ℕ) (i : Fin nl) (r : Fin (sz i)) :
    Fin (totA nl sz) :=
  ⟨accL sz i + (r : ℕ), by
    have h1 := accL_le_of_lt sz i.isLt
    have h2 := r.isLt
    unfold totA; omega⟩

/-- Concatenation over the levels of a `Fin nl`-indexed family. -/
def catLv {β : Type} {nl : ℕ} (sz : ℕ → ℕ) (d : β)
    (f : (i : Fin nl) → Fin (sz i) → β) : Fin (totA nl sz) → β :=
  catFam sz (extL sz d f) nl

theorem catLv_gidx {β : Type} {nl : ℕ} (sz : ℕ → ℕ) (d : β)
    (f : (i : Fin nl) → Fin (sz i) → β) (i : Fin nl) (r : Fin (sz i)) :
    catLv sz d f (gidx sz i r) = f i r := by
  unfold catLv gidx
  rw [catFam_apply sz _ i.isLt r]
  simp [extL, i.isLt]

theorem maxOver_ge {n : ℕ} (h : 0 < n) (f : Fin n → ℝ) (j : Fin n) :
    f j ≤ maxOver f := by
  simp only [maxOver, dif_pos h]
  exact Finset.le_sup' f (Finset.mem_univ j)

theorem maxOver_eq_some {n : ℕ} (h : 0 < n) (f : Fin n → ℝ) :
    ∃ j, maxOver f = f j := by
  simp only [maxOver, dif_pos h]
  obtain ⟨j, _, hj⟩ := Finset.exists_mem_eq_sup' ⟨⟨0, h⟩, Finset.mem_univ _⟩ f
  exact ⟨j, hj⟩

theorem sigmoid_pos (t : ℝ) : 0 < sigmoid t := by
  unfold sigmoid
  positivity

theorem sigmoid_lt_one (t : ℝ) : sigmoid t < 1 := by
  unfold sigmoid
  rw [div_lt_one (by positivity)]
  have := Real.exp_pos (-t)
  linarith

theorem softmax_pos {n : ℕ} (hn : 0 < n) (z : Fin n → ℝ) (r : Fin n) :
    0 < softmax z r := by
  unfold softmax
  apply div_pos (Real.exp_pos _)
  apply Finset.sum_pos (fun s _ => Real.exp_pos _)
  exact ⟨⟨0, hn⟩, Finset.mem_univ _⟩

theorem softmax_sum_one {n : ℕ} (hn : 0 < n) (z : Fin n → ℝ) :
    ∑ r, softmax z r = 1 := by
  unfold softmax
  rw [← Finset.sum_div]
  apply div_self
  have : 0 < ∑ s, Real.exp (z s) := by
    apply Finset.sum_pos (fun s _ => Real.exp_pos _)
    exact ⟨⟨0, hn⟩, Finset.mem_univ _⟩
  linarith

/-- `make_anchors(feats, strides, grid_cell_offset)` from `heads.py`.  Only
the spatial shapes `(h i, w i)` of the feature maps are read.  For each
level `i` it builds the shift grids `sx = arange(w) + offset`,
`sy = arange(h) + offset`, stacks `(sx, sy)` into one `(x, y)` row per cell
(row-major over the `h × w` grid) and one stride row per cell, and
concatenates the levels. -/
noncomputable def make_anchors {nl : ℕ} (h w : ℕ → ℕ) (strides : Fin nl → ℝ)
    (grid_cell_offset : ℝ) :
    (Fin (totA nl fun k => h k * w k) → Fin 2 → ℝ) ×
      (Fin (totA nl fun k => h k * w k) → ℝ) :=
  (catLv (fun k => h k * w k) (fun _ => 0)
     (fun _i p d =>
        if (d : ℕ) = 0 then ((funpair p).2 : ℕ) + grid_cell_offset
        else ((funpair p).1 : ℕ) + grid_cell_offset),
   catLv (fun k => h k * w k) 0 (fun i _ => strides i))

theorem catC_apply_left {b c1 c2 h w : ℕ} (t : T4 b c1 h w) (u : T4 b c2 h w)
    (bi : Fin b) (c : Fin (c1 + c2)) (yy : Fin h) (xx : Fin w)
    (hc : (c : ℕ) < c1) :
    catC t u bi c yy xx = t bi ⟨c, hc⟩ yy xx := by
  simp [catC, hc]

theorem catC_apply_right {b c1 c2 h w : ℕ} (t : T4 b c1 h w) (u : T4 b c2 h w)
    (bi : Fin b) (c : Fin (c1 + c2)) (yy : Fin h) (xx : Fin w)
    (hc : ¬ (c : ℕ) < c1) (hc2 : (c : ℕ) - c1 < c2) :
    catC t u bi c yy xx = u bi ⟨(c : ℕ) - c1, hc2⟩ yy xx := by
  simp [catC, hc]

theorem catC3_apply_left {b c1 c2 a : ℕ} (t : T3 b c1 a) (u : T3 b c2 a)
    (bi : Fin b) (c : Fin (c1 + c2)) (g : Fin a) (hc : (c : ℕ) < c1) :
    catC3 t u bi c g = t bi ⟨c, hc⟩ g := by
  simp [catC3, hc]

theorem catC3_apply_right {b c1 c2 a : ℕ} (t : T3 b c1 a) (u : T3 b c2 a)
    (bi : Fin b) (c : Fin (c1 + c2)) (g : Fin a)
    (hc : ¬ (c : ℕ) < c1) (hc2 : (c : ℕ) - c1 < c2) :
    catC3 t u bi c g = u bi ⟨(c : ℕ) - c1, hc2⟩ g := by
  simp [catC3, hc]

theorem fpair_val {m n : ℕ} (i : Fin m) (j : Fin n) :
    ((fpair i j : Fin (m * n)) : ℕ) = (i : ℕ) * n + j := rfl

theorem fpair_mod {m n : ℕ} (i : Fin m) (j : Fin n) :
    ((fpair i j : Fin (m * n)) : ℕ) % n = j := by
  have h := congrArg (fun p => ((p.2 : Fin n) : ℕ)) (funpair_fpair i j)
  simpa [funpair] using h

theorem fpair_div {m n : ℕ} (i : Fin m) (j : Fin n) :
    ((fpair i j : Fin (m * n)) : ℕ) / n = i := by
  have h := congrArg (fun p => ((p.1 : Fin m) : ℕ)) (funpair_fpair i j)
  simpa [funpair] using h

/-- Channel layout of `cat([box, conf, cls], 1)` in rank-3 form: the first
`c1` channels are the box channels. -/
theorem yLayout_box {b c1 c2 a : ℕ} (box : T3 b c1 a) (conf : T3 b 1 a)
    (cls : T3 b c2 a) (bi : Fin b) (c : Fin c1) (g : Fin a) :
    catC3 box (catC3 conf cls) bi ⟨c, by have := c.isLt; omega⟩ g =
      box bi c g := by
  unfold catC3
  rw [dif_pos c.isLt]

/-- Channel layout of `cat([box, conf, cls], 1)`: channel `c1` is the
confidence channel. -/
theorem yLayout_conf {b c1 c2 a : ℕ} (box : T3 b c1 a) (conf : T3 b 1 a)
    (cls : T3 b c2 a) (bi : Fin b) (g : Fin a) :
    catC3 box (catC3 conf cls) bi ⟨c1, by omega⟩ g =
      conf bi ⟨0, Nat.one_pos⟩ g := by
  unfold catC3
  rw [dif_neg (show ¬ c1 < c1 by omega), dif_pos (show c1 - c1 < 1 by omega)]
  congr 1
  apply Fin.ext
  show c1 - c1 = 0
  omega

/-- Channel layout of `cat([box, conf, cls], 1)`: channel `c1 + 1 + j` is
class score `j`. -/
theorem yLayout_cls {b c1 c2 a : ℕ} (box : T3 b c1 a) (conf : T3 b 1 a)
    (cls : T3 b c2 a) (bi : Fin b) (j : Fin c2) (g : Fin a) :
    catC3 box (catC3 conf cls) bi ⟨c1 + 1 + j, by have := j.isLt; omega⟩ g =
      cls bi j g := by
  unfold catC3
  rw [dif_neg (show ¬ c1 + 1 + (j : ℕ) < c1 by omega),
    dif_neg (show ¬ c1 + 1 + (j : ℕ) - c1 < 1 by omega)]
  congr 1
  apply Fin.ext
  show c1 + 1 + (j : ℕ) - c1 - 1 = (j : ℕ)
  omega

/-- The rank-4 analogue for the V6-family per-level outputs: box part. -/
theorem yLayout4_box {b c1 c2 h w : ℕ} (box : T4 b c1 h w) (conf : T4 b 1 h w)
    (cls : T4 b c2 h w) (bi : Fin b) (c : Fin c1) (yy : Fin h) (xx : Fin w) :
    catC box (catC conf cls) bi ⟨c, by have := c.isLt; omega⟩ yy xx =
      box bi c yy xx := by
  unfold catC
  rw [dif_pos c.isLt]

/-- The rank-4 analogue: confidence channel. -/
theorem yLayout4_conf {b c1 c2 h w : ℕ} (box : T4 b c1 h w) (conf : T4 b 1 h w)
    (cls : T4 b c2 h w) (bi : Fin b) (yy : Fin h) (xx : Fin w) :
    catC box (catC conf cls) bi ⟨c1, by omega⟩ yy xx =
      conf bi ⟨0, Nat.one_pos⟩ yy xx := by
  unfold catC
  rw [dif_neg (show ¬ c1 < c1 by omega), dif_pos (show c1 - c1 < 1 by omega)]
  congr 1
  apply Fin.ext
  show c1 - c1 = 0
  omega

/-- The rank-4 analogue: class channels. -/
theorem yLayout4_cls {b c1 c2 h w : ℕ} (box : T4 b c1 h w) (conf : T4 b 1 h w)
    (cls : T4 b c2 h w) (bi : Fin b) (j : Fin c2) (yy : Fin h) (xx : Fin w) :
    catC box (catC conf cls) bi ⟨c1 + 1 + j, by have := j.isLt; omega⟩ yy xx =
      cls bi j yy xx := by
  unfold catC
  rw [dif_neg (show ¬ c1 + 1 + (j : ℕ) < c1 by omega),
    dif_neg (show ¬ c1 + 1 + (j : ℕ) - c1 < 1 by omega)]
  congr 1
  apply Fin.ext
  show c1 + 1 + (j : ℕ) - c1 - 1 = (j : ℕ)
  omega

/-- The attributes of a wrapped YOLOv5 `Detect` head that
`DetectV5.__init__` reads.  Cached grids and anchor data are opaque
payloads (they are copied but never used by the adapter's forward). -/
structure OldDetectV5 (bs nl : ℕ) (ch oc h w : ℕ → ℕ) where
  nc : ℕ
  no : ℕ
  na : ℕ
  grid : List ℝ
  anchor_grid : List ℝ
  m : (i : Fin nl) → T4 bs (ch i) (h i) (w i) → T4 bs (oc i) (h i) (w i)
  inplace : Bool
  stride : List ℝ
  anchors : List ℝ
  fAttr : List ℤ
  iAttr : ℕ

/-- `DetectV5` adapter: YOLOv5 Detect head (`heads.py`). -/
structure DetectV5 (bs nl : ℕ) (ch oc h w : ℕ → ℕ) where
  nc : ℕ
  no : ℕ
  na : ℕ
  grid : List ℝ
  anchor_grid : List ℝ
  m : (i : Fin nl) → T4 bs (ch i) (h i) (w i) → T4 bs (oc i) (h i) (w i)
  inplace : Bool
  stride : List ℝ
  anchors : List ℝ
  fAttr : List ℤ
  iAttr : ℕ

/-- `DetectV5.__init__(old_detect)`: copies every attribute of the wrapped
head. -/
noncomputable def DetectV5.init {bs nl : ℕ} {ch oc h w : ℕ → ℕ}
    (old : OldDetectV5 bs nl ch oc h w) : DetectV5 bs nl ch oc h w :=
  { nc := old.nc, no := old.no, na := old.na, grid := old.grid,
    anchor_grid := old.anchor_grid, m := old.m, inplace := old.inplace,
    stride := old.stride, anchors := old.anchors, fAttr := old.fAttr,
    iAttr := old.iAttr }

/-- `DetectV5.forward(x)`: for each level, `x[i] = self.m[i](x[i])` (the
caller's list is overwritten in place) and the sigmoid of the convolved
map is appended to the output list.  Returns (outputs, final contents of
`x`, the adapter instance — `forward` assigns no attribute). -/
noncomputable def DetectV5.forward {bs nl : ℕ} {ch oc h w : ℕ → ℕ}
    (A : DetectV5 bs nl ch oc h w)
    (x : (i : Fin nl) → T4 bs (ch i) (h i) (w i)) :
    ((i : Fin nl) → T4 bs (oc i) (h i) (w i)) ×
      ((i : Fin nl) → T4 bs (oc i) (h i) (w i)) ×
      DetectV5 bs nl ch oc h w :=
  let x' := fun i => A.m i (x i)
  (fun i b c yy xx => sigmoid (x' i b c yy xx), x', A)

/-- The attributes of a wrapped YOLOv7 `Detect` head that
`DetectV7.__init__` reads (no `inplace`, otherwise as in V5). -/
structure OldDetectV7 (bs nl : ℕ) (ch oc h w : ℕ → ℕ) where
  nc : ℕ
  no : ℕ
  na : ℕ
  grid : List ℝ
  anchor_grid : List ℝ
  m : (i : Fin nl) → T4 bs (ch i) (h i) (w i) → T4 bs (oc i) (h i) (w i)
  stride : List ℝ
  anchors : List ℝ
  fAttr : List ℤ
  iAttr : ℕ

/-- `DetectV7` adapter: YOLOv7 Detect head (`heads.py`). -/
structure DetectV7 (bs nl : ℕ) (ch oc h w : ℕ → ℕ) where
  nc : ℕ
  no : ℕ
  na : ℕ
  grid : List ℝ
  anchor_grid : List ℝ
  m : (i : Fin nl) → T4 bs (ch i) (h i) (w i) → T4 bs (oc i) (h i) (w i)
  stride : List ℝ
  anchors : List ℝ
  fAttr : List ℤ
  iAttr : ℕ

/-- `DetectV7.__init__(old_detect)`: copies every attribute of the wrapped
head. -/
noncomputable def DetectV7.init {bs nl : ℕ} {ch oc h w : ℕ → ℕ}
    (old : OldDetectV7 bs nl ch oc h w) : DetectV7 bs nl ch oc h w :=
  { nc := old.nc, no := old.no, na := old.na, grid := old.grid,
    anchor_grid := old.anchor_grid, m := old.m, stride := old.stride,
    anchors := old.anchors, fAttr := old.fAttr, iAttr := old.iAttr }

/-- `DetectV7.forward(x)`: identical computation to `DetectV5.forward`. -/
noncomputable def DetectV7.forward {bs nl : ℕ} {ch oc h w : ℕ → ℕ}
    (A : DetectV7 bs nl ch oc h w)
    (x : (i : Fin nl) → T4 bs (ch i) (h i) (w i)) :
    ((i : Fin nl) → T4 bs (oc i) (h i) (w i)) ×
      ((i : Fin nl) → T4 bs (oc i) (h i) (w i)) ×
      DetectV7 bs nl ch oc h w :=
  let x' := fun i => A.m i (x i)
  (fun i b c yy xx => sigmoid (x' i b c yy xx), x', A)

/-- The `DetectV7` adapter carrying the same layers and hyperparameters as
a given `DetectV5` adapter (the V7 class has no `inplace` attribute). -/
noncomputable def v7OfV5 {bs nl : ℕ} {ch oc h w : ℕ → ℕ}
    (A : DetectV5 bs nl ch oc h w) : DetectV7 bs nl ch oc h w :=
  { nc := A.nc, no := A.no, na := A.na, grid := A.grid,
    anchor_grid := A.anchor_grid, m := A.m, stride := A.stride,
    anchors := A.anchors, fAttr := A.fAttr, iAttr := A.iAttr }

/-- Number of regression channels in the output of the YOLOv6 R3 / R4m / V2
heads: the DFL decode collapses `4 * (reg_max + 1)` bin-logit channels to 4
coordinates; without DFL the raw regression map passes through. -/
def regOutCh (use_dfl : Bool) (regMax : ℕ) : ℕ :=
  if use_dfl then 4 else 4 * (regMax + 1)

/-- The attributes of a wrapped YOLOv6 R2/R3 head read by
`DetectV6R3.__init__`.  `anchors` is optional (`hasattr` in the source);
the `cls_preds`/`cls_preds_af` (resp. `reg_preds`/`reg_preds_af`) `hasattr`
dispatch is modelled by the single prediction-layer field that is present.
`proj_conv` is `Conv2d(reg_max + 1, 1, 1, bias=False)`; its copied learned
kernel is the weight vector `projw`. -/
structure OldDetectV6R3 (bs nl nc regMax : ℕ) (use_dfl : Bool)
    (ch h w sc cc rc : ℕ → ℕ) where
  nc' : ℕ
  no : ℕ
  anchors : Option (List ℝ)
  grid : List ℝ
  inplace : Bool
  stride : List ℝ
  projw : Fin (regMax + 1) → ℝ
  stems : (i : Fin nl) → T4 bs (ch i) (h i) (w i) → T4 bs (sc i) (h i) (w i)
  cls_convs : (i : Fin nl) → T4 bs (sc i) (h i) (w i) → T4 bs (cc i) (h i) (w i)
  reg_convs : (i : Fin nl) → T4 bs (sc i) (h i) (w i) → T4 bs (rc i) (h i) (w i)
  cls_preds : (i : Fin nl) → T4 bs (cc i) (h i) (w i) → T4 bs nc (h i) (w i)
  reg_preds : (i : Fin nl) → T4 bs (rc i) (h i) (w i) →
    T4 bs (4 * (regMax + 1)) (h i) (w i)

/-- `DetectV6R3` adapter: YOLOv6 R2&R3 efficient decoupled head
(`heads.py`).  The Boolean `use_dfl` is a type-level parameter because the
number of output regression channels depends on it. -/
structure DetectV6R3 (bs nl nc regMax : ℕ) (use_dfl : Bool)
    (ch h w sc cc rc : ℕ → ℕ) where
  nc' : ℕ
  no : ℕ
  anchors : Option (List ℝ)
  grid : List ℝ
  prior_prob : ℝ
  inplace : Bool
  stride : List ℝ
  projw : Fin (regMax + 1) → ℝ
  grid_cell_offset : ℝ
  grid_cell_size : ℝ
  stems : (i : Fin nl) → T4 bs (ch i) (h i) (w i) → T4 bs (sc i) (h i) (w i)
  cls_convs : (i : Fin nl) → T4 bs (sc i) (h i) (w i) → T4 bs (cc i) (h i) (w i)
  reg_convs : (i : Fin nl) → T4 bs (sc i) (h i) (w i) → T4 bs (rc i) (h i) (w i)
  cls_preds : (i : Fin nl) → T4 bs (cc i) (h i) (w i) → T4 bs nc (h i) (w i)
  reg_preds : (i : Fin nl) → T4 bs (rc i) (h i) (w i) →
    T4 bs (4 * (regMax + 1)) (h i) (w i)
  use_rvc2 : Bool

/-- `DetectV6R3.__init__(old_detect, use_rvc2)`: copies the head's layers
and hyperparameters, except that `stride` is set to the constant
`[8, 16, 32]` ("strides computed during build"), `prior_prob` to `1e-2`,
`grid_cell_offset` to `0.5` and `grid_cell_size` to `5.0`. -/
noncomputable def DetectV6R3.init {bs nl nc regMax : ℕ} {ud : Bool}
    {ch h w sc cc rc : ℕ → ℕ}
    (old : OldDetectV6R3 bs nl nc regMax ud ch h w sc cc rc)
    (use_rvc2 : Bool) :
    DetectV6R3 bs nl nc regMax ud ch h w sc cc rc :=
  { nc' := old.nc', no := old.no, anchors := old.anchors, grid := old.grid,
    prior_prob := 1e-2, inplace := old.inplace,
    stride := [8, 16, 32],
    projw := old.projw, grid_cell_offset := 0.5, grid_cell_size := 5.0,
    stems := old.stems, cls_convs := old.cls_convs, reg_convs := old.reg_convs,
    cls_preds := old.cls_preds, reg_preds := old.reg_preds,
    use_rvc2 := use_rvc2 }

/-- The regression branch of `DetectV6R3.forward` on one level: when
`use_dfl`, `reshape([-1, 4, reg_max+1, l]).permute(0, 2, 1, 3)`, softmax
over the bin axis, `proj_conv` (a 1×1 convolution to one channel), `[:, 0]`
and `reshape([-1, 4, h, w])`; otherwise the raw `reg_preds` output. -/
noncomputable def DetectV6R3.regDec {bs nl nc regMax : ℕ} {ud : Bool}
    {ch h w sc cc rc : ℕ → ℕ} (A : DetectV6R3 bs nl nc regMax ud ch h w sc cc rc)
    (xi : (i : Fin nl) → T4 bs (sc i) (h i) (w i)) (i : Fin nl) :
    T4 bs (regOutCh ud regMax) (h i) (w i) :=
  let reg_feat := A.reg_convs i (xi i)
  let reg_output := A.reg_preds i reg_feat
  match ud with
  | true =>
    -- reshape([-1, 4, reg_max + 1, l]) followed by permute(0, 2, 1, 3):
    -- channel q * (reg_max + 1) + rb at flat cell s goes to (rb, q, s)
    let r4 : Fin bs → Fin (regMax + 1) → Fin 4 → Fin (h i * w i) → ℝ :=
      fun b rb q s => reg_output b (fpair q rb) (funpair s).1 (funpair s).2
    -- F.softmax(·, dim=1), then proj_conv (a 1×1 conv to one channel)
    let pr : Fin bs → Fin 1 → Fin 4 → Fin (h i * w i) → ℝ :=
      fun b _ q s => ∑ rb, A.projw rb * softmax (fun rb' => r4 b rb' q s) rb
    -- `[:, 0]` then reshape([-1, 4, h, w])
    fun b q yy xx => pr b ⟨0, Nat.one_pos⟩ q (fpair yy xx)
  | false => reg_output

/-- `DetectV6R3.forward(x)` on one level `i`: stem, decoupled cls/reg
branches, optional DFL decode (`DetectV6R3.regDec`), sigmoid class scores,
confidence channel (`max` over classes if `use_rvc2` else ones),
concatenated `[reg_output, conf, cls_output]` along channels. -/
noncomputable def DetectV6R3.forwardLevel {bs nl nc regMax : ℕ} {ud : Bool}
    {ch h w sc cc rc : ℕ → ℕ} (A : DetectV6R3 bs nl nc regMax ud ch h w sc cc rc)
    (xi : (i : Fin nl) → T4 bs (sc i) (h i) (w i)) (i : Fin nl) :
    T4 bs (regOutCh ud regMax + (1 + nc)) (h i) (w i) :=
  let cls_feat := A.cls_convs i (xi i)
  let cls_output := A.cls_preds i cls_feat
  let clsS : T4 bs nc (h i) (w i) :=
    fun b j yy xx => sigmoid (cls_output b j yy xx)
  let conf : T4 bs 1 (h i) (w i) :=
    if A.use_rvc2 then fun b _ yy xx => maxOver (fun j => clsS b j yy xx)
    else fun _ _ _ _ => 1
  catC (A.regDec xi i) (catC conf clsS)

/-- `DetectV6R3.forward(x)`: overwrites each `x[i]` with `stems[i](x[i])`
and returns one concatenated tensor per level.  No attribute of the
adapter is assigned. -/
noncomputable def DetectV6R3.forward {bs nl nc regMax : ℕ} {ud : Bool}
    {ch h w sc cc rc : ℕ → ℕ} (A : DetectV6R3 bs nl nc regMax ud ch h w sc cc rc)
    (x : (i : Fin nl) → T4 bs (ch i) (h i) (w i)) :
    ((i : Fin nl) → T4 bs (regOutCh ud regMax + (1 + nc)) (h i) (w i)) ×
      ((i : Fin nl) → T4 bs (sc i) (h i) (w i)) ×
      DetectV6R3 bs nl nc regMax ud ch h w sc cc rc :=
  let x' := fun i => A.stems i (x i)
  (fun i => A.forwardLevel x' i, x', A)

/-- The attributes of a wrapped anchor-based YOLOv6 R1 head read by
`DetectV6R1.__init__`.  The cached `grid[i]` is `none` when its spatial
shape does not match level `i` (e.g. the initial `torch.zeros(1)`), and
`some g` when a `(ny, nx)` grid is cached.  `hshape` records that the
prediction layers emit `na * no` channels in total, which the source's
`view(bs, na, no, ny, nx)` requires. -/
structure OldDetectV6R1 (bs nl na no : ℕ) (ch h w sc cc rc rg og cg : ℕ → ℕ) where
  nc : ℕ
  anchors : List ℝ
  grid : (i : Fin nl) → Option (Fin (h i) → Fin (w i) → ℝ × ℝ)
  inplace : Bool
  stride : List ℝ
  stems : (i : Fin nl) → T4 bs (ch i) (h i) (w i) → T4 bs (sc i) (h i) (w i)
  cls_convs : (i : Fin nl) → T4 bs (sc i) (h i) (w i) → T4 bs (cc i) (h i) (w i)
  reg_convs : (i : Fin nl) → T4 bs (sc i) (h i) (w i) → T4 bs (rc i) (h i) (w i)
  cls_preds : (i : Fin nl) → T4 bs (cc i) (h i) (w i) → T4 bs (cg i) (h i) (w i)
  reg_preds : (i : Fin nl) → T4 bs (rc i) (h i) (w i) → T4 bs (rg i) (h i) (w i)
  obj_preds : (i : Fin nl) → T4 bs (rc i) (h i) (w i) → T4 bs (og i) (h i) (w i)
  hshape : ∀ i : Fin nl, rg i + (og i + cg i) = na * no

/-- `DetectV6R1` adapter: anchor-based YOLOv6 R1 efficient decoupled head
(`heads.py`). -/
structure DetectV6R1 (bs nl na no : ℕ) (ch h w sc cc rc rg og cg : ℕ → ℕ) where
  nc : ℕ
  anchors : List ℝ
  grid : (i : Fin nl) → Option (Fin (h i) → Fin (w i) → ℝ × ℝ)
  prior_prob : ℝ
  inplace : Bool
  stride : List ℝ
  stems : (i : Fin nl) → T4 bs (ch i) (h i) (w i) → T4 bs (sc i) (h i) (w i)
  cls_convs : (i : Fin nl) → T4 bs (sc i) (h i) (w i) → T4 bs (cc i) (h i) (w i)
  reg_convs : (i : Fin nl) → T4 bs (sc i) (h i) (w i) → T4 bs (rc i) (h i) (w i)
  cls_preds : (i : Fin nl) → T4 bs (cc i) (h i) (w i) → T4 bs (cg i) (h i) (w i)
  reg_preds : (i : Fin nl) → T4 bs (rc i) (h i) (w i) → T4 bs (rg i) (h i) (w i)
  obj_preds : (i : Fin nl) → T4 bs (rc i) (h i) (w i) → T4 bs (og i) (h i) (w i)
  hshape : ∀ i : Fin nl, rg i + (og i + cg i) = na * no

/-- `DetectV6R1.__init__(old_detect)`: copies the head's layers and
hyperparameters, with `prior_prob = 1e-2` and `stride` set to the constant
`[8, 16, 32]` ("strides computed during build"). -/
noncomputable def DetectV6R1.init {bs nl na no : ℕ}
    {ch h w sc cc rc rg og cg : ℕ → ℕ}
    (old : OldDetectV6R1 bs nl na no ch h w sc cc rc rg og cg) :
    DetectV6R1 bs nl na no ch h w sc cc rc rg og cg :=
  { nc := old.nc, anchors := old.anchors, grid := old.grid,
    prior_prob := 1e-2, inplace := old.inplace,
    stride := [8, 16, 32],
    stems := old.stems, cls_convs := old.cls_convs, reg_convs := old.reg_convs,
    cls_preds := old.cls_preds, reg_preds := old.reg_preds,
    obj_preds := old.obj_preds, hshape := old.hshape }

/-- `DetectV6R1.forward(x)`: per level, stem (overwriting `x[i]`),
decoupled cls/reg/obj branches,
`cat([reg, obj.sigmoid(), cls.sigmoid()], 1)`, `view(bs, na, no, ny, nx)`
then `permute(0, 1, 3, 4, 2)`, cached-grid refresh
(`self.grid[i]` is reassigned when its shape does not match — the `none`
case), xy/wh decode against grid and stride (the `inplace` and
non-`inplace` branches produce the same tensor), `view(bs, -1, no)` per
level and `cat(z, 1)` over levels.  Returns (decoded predictions, final
contents of `x`, the adapter with its refreshed `grid`). -/
noncomputable def DetectV6R1.forward {bs nl na no : ℕ}
    {ch h w sc cc rc rg og cg : ℕ → ℕ}
    (A : DetectV6R1 bs nl na no ch h w sc cc rc rg og cg)
    (x : (i : Fin nl) → T4 bs (ch i) (h i) (w i)) :
    (Fin bs → Fin (totA nl fun k => na * (h k * w k)) → Fin no → ℝ) ×
      ((i : Fin nl) → T4 bs (sc i) (h i) (w i)) ×
      DetectV6R1 bs nl na no ch h w sc cc rc rg og cg :=
  let x' := fun i => A.stems i (x i)
  let y4 : (i : Fin nl) → T4 bs (rg i + (og i + cg i)) (h i) (w i) := fun i =>
    let cls_feat := A.cls_convs i (x' i)
    let cls_output := A.cls_preds i cls_feat
    let reg_feat := A.reg_convs i (x' i)
    let reg_output := A.reg_preds i reg_feat
    let obj_output := A.obj_preds i reg_feat
    catC reg_output
      (catC (fun b c yy xx => sigmoid (obj_output b c yy xx))
        (fun b c yy xx => sigmoid (cls_output b c yy xx)))
  let y5 : (i : Fin nl) → Fin bs → Fin na → Fin (h i) → Fin (w i) →
      Fin no → ℝ :=
    fun i b a yy xx o => y4 i b (Fin.cast (A.hshape i).symm (fpair a o)) yy xx
  let gridAt : (i : Fin nl) → Fin (h i) → Fin (w i) → ℝ × ℝ :=
    fun i => (A.grid i).getD (fun yy xx => (((xx : ℕ) : ℝ), ((yy : ℕ) : ℝ)))
  let strideAt : Fin nl → ℝ := fun i => A.stride.getD i 0
  let yd : (i : Fin nl) → Fin bs → Fin na → Fin (h i) → Fin (w i) →
      Fin no → ℝ :=
    fun i b a yy xx o =>
      if (o : ℕ) < 2 then
        (y5 i b a yy xx o +
          (if (o : ℕ) = 0 then (gridAt i yy xx).1 else (gridAt i yy xx).2)) *
          strideAt i
      else if (o : ℕ) < 4 then Real.exp (y5 i b a yy xx o) * strideAt i
      else y5 i b a yy xx o
  let out : Fin bs → Fin (totA nl fun k => na * (h k * w k)) → Fin no → ℝ :=
    fun b g o => catLv (fun k => na * (h k * w k)) 0
      (fun i r => yd i b (funpair r).1 (funpair (funpair r).2).1
        (funpair (funpair r).2).2 o) g
  (out, x', { A with grid := fun i => some (gridAt i) })

/-- The attributes of a wrapped YOLOv6 R4 nano/small head read by
`DetectV6R4s.__init__`.  `anchors`, `use_dfl`, `reg_max` and `proj_conv`
are `hasattr`-conditional in the source and modelled as `Option`s
(`proj_conv` as an opaque payload — the R4s forward never uses it). -/
structure OldDetectV6R4s (bs nl nc : ℕ) (ch h w sc cc rc rg : ℕ → ℕ) where
  nc' : ℕ
  no : ℕ
  anchors : Option (List ℝ)
  grid : List ℝ
  inplace : Bool
  stride : List ℝ
  use_dfl : Option Bool
  reg_max : Option ℕ
  proj_conv : Option (List ℝ)
  stems : (i : Fin nl) → T4 bs (ch i) (h i) (w i) → T4 bs (sc i) (h i) (w i)
  cls_convs : (i : Fin nl) → T4 bs (sc i) (h i) (w i) → T4 bs (cc i) (h i) (w i)
  reg_convs : (i : Fin nl) → T4 bs (sc i) (h i) (w i) → T4 bs (rc i) (h i) (w i)
  cls_preds : (i : Fin nl) → T4 bs (cc i) (h i) (w i) → T4 bs nc (h i) (w i)
  reg_preds : (i : Fin nl) → T4 bs (rc i) (h i) (w i) → T4 bs (rg i) (h i) (w i)

/-- `DetectV6R4s` adapter: YOLOv6 R4 nano & small decoupled head
(`heads.py`).  No DFL decode: the raw regression map is emitted. -/
structure DetectV6R4s (bs nl nc : ℕ) (ch h w sc cc rc rg : ℕ → ℕ) where
  nc' : ℕ
  no : ℕ
  anchors : Option (List ℝ)
  grid : List ℝ
  prior_prob : ℝ
  inplace : Bool
  stride : List ℝ
  use_dfl : Option Bool
  reg_max : Option ℕ
  proj_conv : Option (List ℝ)
  grid_cell_offset : ℝ
  grid_cell_size : ℝ
  stems : (i : Fin nl) → T4 bs (ch i) (h i) (w i) → T4 bs (sc i) (h i) (w i)
  cls_convs : (i : Fin nl) → T4 bs (sc i) (h i) (w i) → T4 bs (cc i) (h i) (w i)
  reg_convs : (i : Fin nl) → T4 bs (sc i) (h i) (w i) → T4 bs (rc i) (h i) (w i)
  cls_preds : (i : Fin nl) → T4 bs (cc i) (h i) (w i) → T4 bs nc (h i) (w i)
  reg_preds : (i : Fin nl) → T4 bs (rc i) (h i) (w i) → T4 bs (rg i) (h i) (w i)
  use_rvc2 : Bool

/-- `DetectV6R4s.__init__(old_detect, use_rvc2)`: copies the head's layers
and hyperparameters; `stride` is copied from the wrapped head. -/
noncomputable def DetectV6R4s.init {bs nl nc : ℕ} {ch h w sc cc rc rg : ℕ → ℕ}
    (old : OldDetectV6R4s bs nl nc ch h w sc cc rc rg) (use_rvc2 : Bool) :
    DetectV6R4s bs nl nc ch h w sc cc rc rg :=
  { nc' := old.nc', no := old.no, anchors := old.anchors, grid := old.grid,
    prior_prob := 1e-2, inplace := old.inplace, stride := old.stride,
    use_dfl := old.use_dfl, reg_max := old.reg_max, proj_conv := old.proj_conv,
    grid_cell_offset := 0.5, grid_cell_size := 5.0,
    stems := old.stems, cls_convs := old.cls_convs, reg_convs := old.reg_convs,
    cls_preds := old.cls_preds, reg_preds := old.reg_preds,
    use_rvc2 := use_rvc2 }

/-- `DetectV6R4s.forward(x)` on one level: stem, decoupled branches,
sigmoid class scores, confidence channel (`max` if `use_rvc2` else ones),
concatenated `[reg_output, conf, cls_output]`. -/
noncomputable def DetectV6R4s.forwardLevel {bs nl nc : ℕ}
    {ch h w sc cc rc rg : ℕ → ℕ} (A : DetectV6R4s bs nl nc ch h w sc cc rc rg)
    (xi : (i : Fin nl) → T4 bs (sc i) (h i) (w i)) (i : Fin nl) :
    T4 bs (rg i + (1 + nc)) (h i) (w i) :=
  let cls_feat := A.cls_convs i (xi i)
  let cls_output := A.cls_preds i cls_feat
  let reg_feat := A.reg_convs i (xi i)
  let reg_output := A.reg_preds i reg_feat
  let clsS : T4 bs nc (h i) (w i) :=
    fun b j yy xx => sigmoid (cls_output b j yy xx)
  let conf : T4 bs 1 (h i) (w i) :=
    if A.use_rvc2 then fun b _ yy xx => maxOver (fun j => clsS b j yy xx)
    else fun _ _ _ _ => 1
  catC reg_output (catC conf clsS)

/-- `DetectV6R4s.forward(x)`: overwrites each `x[i]` with
`stems[i](x[i])`; no adapter attribute is assigned. -/
noncomputable def DetectV6R4s.forward {bs nl nc : ℕ}
    {ch h w sc cc rc rg : ℕ → ℕ} (A : DetectV6R4s bs nl nc ch h w sc cc rc rg)
    (x : (i : Fin nl) → T4 bs (ch i) (h i) (w i)) :
    ((i : Fin nl) → T4 bs (rg i + (1 + nc)) (h i) (w i)) ×
      ((i : Fin nl) → T4 bs (sc i) (h i) (w i)) ×
      DetectV6R4s bs nl nc ch h w sc cc rc rg :=
  let x' := fun i => A.stems i (x i)
  (fun i => A.forwardLevel x' i, x', A)

/-- The attributes of a wrapped YOLOv6 R4 medium/large head read by
`DetectV6R4m.__init__` (`use_dfl`, `reg_max`, `proj_conv` unconditionally
present). -/
structure OldDetectV6R4m (bs nl nc regMax : ℕ) (use_dfl : Bool)
    (ch h w sc cc rc : ℕ → ℕ) where
  nc' : ℕ
  no : ℕ
  anchors : Option (List ℝ)
  grid : List ℝ
  inplace : Bool
  stride : List ℝ
  projw : Fin (regMax + 1) → ℝ
  stems : (i : Fin nl) → T4 bs (ch i) (h i) (w i) → T4 bs (sc i) (h i) (w i)
  cls_convs : (i : Fin nl) → T4 bs (sc i) (h i) (w i) → T4 bs (cc i) (h i) (w i)
  reg_convs : (i : Fin nl) → T4 bs (sc i) (h i) (w i) → T4 bs (rc i) (h i) (w i)
  cls_preds : (i : Fin nl) → T4 bs (cc i) (h i) (w i) → T4 bs nc (h i) (w i)
  reg_preds : (i : Fin nl) → T4 bs (rc i) (h i) (w i) →
    T4 bs (4 * (regMax + 1)) (h i) (w i)

/-- `DetectV6R4m` adapter: YOLOv6 R4 medium & large decoupled head
(`heads.py`). -/
structure DetectV6R4m (bs nl nc regMax : ℕ) (use_dfl : Bool)
    (ch h w sc cc rc : ℕ → ℕ) where
  nc' : ℕ
  no : ℕ
  anchors : Option (List ℝ)
  grid : List ℝ
  prior_prob : ℝ
  inplace : Bool
  stride : List ℝ
  projw : Fin (regMax + 1) → ℝ
  grid_cell_offset : ℝ
  grid_cell_size : ℝ
  stems : (i : Fin nl) → T4 bs (ch i) (h i) (w i) → T4 bs (sc i) (h i) (w i)
  cls_convs : (i : Fin nl) → T4 bs (sc i) (h i) (w i) → T4 bs (cc i) (h i) (w i)
  reg_convs : (i : Fin nl) → T4 bs (sc i) (h i) (w i) → T4 bs (rc i) (h i) (w i)
  cls_preds : (i : Fin nl) → T4 bs (cc i) (h i) (w i) → T4 bs nc (h i) (w i)
  reg_preds : (i : Fin nl) → T4 bs (rc i) (h i) (w i) →
    T4 bs (4 * (regMax + 1)) (h i) (w i)
  use_rvc2 : Bool

/-- `DetectV6R4m.__init__(old_detect, use_rvc2)`: copies the head's layers
and hyperparameters; `stride` is copied from the wrapped head. -/
noncomputable def DetectV6R4m.init {bs nl nc regMax : ℕ} {ud : Bool}
    {ch h w sc cc rc : ℕ → ℕ}
    (old : OldDetectV6R4m bs nl nc regMax ud ch h w sc cc rc)
    (use_rvc2 : Bool) : DetectV6R4m bs nl nc regMax ud ch h w sc cc rc :=
  { nc' := old.nc', no := old.no, anchors := old.anchors, grid := old.grid,
    prior_prob := 1e-2, inplace := old.inplace, stride := old.stride,
    projw := old.projw, grid_cell_offset := 0.5, grid_cell_size := 5.0,
    stems := old.stems, cls_convs := old.cls_convs, reg_convs := old.reg_convs,
    cls_preds := old.cls_preds, reg_preds := old.reg_preds,
    use_rvc2 := use_rvc2 }

/-- `DetectV6R4m.forward(x)` on one level: as in R3 but the DFL decode
ends with `proj_conv(...).reshape([-1, 4, h, w])` instead of `[:, 0]`
followed by the reshape; on the `(bs, 1, 4, l)` result of `proj_conv` that
reshape reads `(b, q, yy, xx)` from `(b, 0, q, yy*w + xx)`. -/
noncomputable def DetectV6R4m.regDec {bs nl nc regMax : ℕ} {ud : Bool}
    {ch h w sc cc rc : ℕ → ℕ}
    (A : DetectV6R4m bs nl nc regMax ud ch h w sc cc rc)
    (xi : (i : Fin nl) → T4 bs (sc i) (h i) (w i)) (i : Fin nl) :
    T4 bs (regOutCh ud regMax) (h i) (w i) :=
  let reg_feat := A.reg_convs i (xi i)
  let reg_output := A.reg_preds i reg_feat
  match ud with
  | true =>
    let r4 : Fin bs → Fin (regMax + 1) → Fin 4 → Fin (h i * w i) → ℝ :=
      fun b rb q s => reg_output b (fpair q rb) (funpair s).1 (funpair s).2
    let pr : Fin bs → Fin 1 → Fin 4 → Fin (h i * w i) → ℝ :=
      fun b _ q s => ∑ rb, A.projw rb * softmax (fun rb' => r4 b rb' q s) rb
    fun b q yy xx => pr b ⟨0, Nat.one_pos⟩ q (fpair yy xx)
  | false => reg_output

/-- One level of `DetectV6R4m.forward`: decoupled branches, DFL decode
(`DetectV6R4m.regDec`), sigmoid class scores, confidence, concatenated
`[reg_output, conf, cls_output]`. -/
noncomputable def DetectV6R4m.forwardLevel {bs nl nc regMax : ℕ} {ud : Bool}
    {ch h w sc cc rc : ℕ → ℕ}
    (A : DetectV6R4m bs nl nc regMax ud ch h w sc cc rc)
    (xi : (i : Fin nl) → T4 bs (sc i) (h i) (w i)) (i : Fin nl) :
    T4 bs (regOutCh ud regMax + (1 + nc)) (h i) (w i) :=
  let cls_feat := A.cls_convs i (xi i)
  let cls_output := A.cls_preds i cls_feat
  let clsS : T4 bs nc (h i) (w i) :=
    fun b j yy xx => sigmoid (cls_output b j yy xx)
  let conf : T4 bs 1 (h i) (w i) :=
    if A.use_rvc2 then fun b _ yy xx => maxOver (fun j => clsS b j yy xx)
    else fun _ _ _ _ => 1
  catC (A.regDec xi i) (catC conf clsS)

/-- `DetectV6R4m.forward(x)`: overwrites each `x[i]` with
`stems[i](x[i])`; no adapter attribute is assigned. -/
noncomputable def DetectV6R4m.forward {bs nl nc regMax : ℕ} {ud : Bool}
    {ch h w sc cc rc : ℕ → ℕ}
    (A : DetectV6R4m bs nl nc regMax ud ch h w sc cc rc)
    (x : (i : Fin nl) → T4 bs (ch i) (h i) (w i)) :
    ((i : Fin nl) → T4 bs (regOutCh ud regMax + (1 + nc)) (h i) (w i)) ×
      ((i : Fin nl) → T4 bs (sc i) (h i) (w i)) ×
      DetectV6R4m bs nl nc regMax ud ch h w sc cc rc :=
  let x' := fun i => A.stems i (x i)
  (fun i => A.forwardLevel x' i, x', A)

/-- The attributes of a wrapped anchor-based YOLOv6 head read by
`DetectV1.__init__` (`yolo/detect_head.py`); see `OldDetectV6R1`. -/
structure OldDetectV1 (bs nl na no : ℕ) (ch h w sc cc rc rg og cg : ℕ → ℕ) where
  nc : ℕ
  anchors : List ℝ
  grid : (i : Fin nl) → Option (Fin (h i) → Fin (w i) → ℝ × ℝ)
  inplace : Bool
  stride : List ℝ
  stems : (i : Fin nl) → T4 bs (ch i) (h i) (w i) → T4 bs (sc i) (h i) (w i)
  cls_convs : (i : Fin nl) → T4 bs (sc i) (h i) (w i) → T4 bs (cc i) (h i) (w i)
  reg_convs : (i : Fin nl) → T4 bs (sc i) (h i) (w i) → T4 bs (rc i) (h i) (w i)
  cls_preds : (i : Fin nl) → T4 bs (cc i) (h i) (w i) → T4 bs (cg i) (h i) (w i)
  reg_preds : (i : Fin nl) → T4 bs (rc i) (h i) (w i) → T4 bs (rg i) (h i) (w i)
  obj_preds : (i : Fin nl) → T4 bs (rc i) (h i) (w i) → T4 bs (og i) (h i) (w i)
  hshape : ∀ i : Fin nl, rg i + (og i + cg i) = na * no

/-- `DetectV1` adapter: anchor-based efficient decoupled head from
`yolo/detect_head.py`; the computation coincides with `DetectV6R1`. -/
structure DetectV1 (bs nl na no : ℕ) (ch h w sc cc rc rg og cg : ℕ → ℕ) where
  nc : ℕ
  anchors : List ℝ
  grid : (i : Fin nl) → Option (Fin (h i) → Fin (w i) → ℝ × ℝ)
  prior_prob : ℝ
  inplace : Bool
  stride : List ℝ
  stems : (i : Fin nl) → T4 bs (ch i) (h i) (w i) → T4 bs (sc i) (h i) (w i)
  cls_convs : (i : Fin nl) → T4 bs (sc i) (h i) (w i) → T4 bs (cc i) (h i) (w i)
  reg_convs : (i : Fin nl) → T4 bs (sc i) (h i) (w i) → T4 bs (rc i) (h i) (w i)
  cls_preds : (i : Fin nl) → T4 bs (cc i) (h i) (w i) → T4 bs (cg i) (h i) (w i)
  reg_preds : (i : Fin nl) → T4 bs (rc i) (h i) (w i) → T4 bs (rg i) (h i) (w i)
  obj_preds : (i : Fin nl) → T4 bs (rc i) (h i) (w i) → T4 bs (og i) (h i) (w i)
  hshape : ∀ i : Fin nl, rg i + (og i + cg i) = na * no

/-- `DetectV1.__init__(old_detect)`: copies the head's layers and
hyperparameters, with `prior_prob = 1e-2` and `stride` set to the constant
`[8, 16, 32]`. -/
noncomputable def DetectV1.init {bs nl na no : ℕ}
    {ch h w sc cc rc rg og cg : ℕ → ℕ}
    (old : OldDetectV1 bs nl na no ch h w sc cc rc rg og cg) :
    DetectV1 bs nl na no ch h w sc cc rc rg og cg :=
  { nc := old.nc, anchors := old.anchors, grid := old.grid,
    prior_prob := 1e-2, inplace := old.inplace,
    stride := [8, 16, 32],
    stems := old.stems, cls_convs := old.cls_convs, reg_convs := old.reg_convs,
    cls_preds := old.cls_preds, reg_preds := old.reg_preds,
    obj_preds := old.obj_preds, hshape := old.hshape }

/-- `DetectV1.forward(x)`: line for line the computation of
`DetectV6R1.forward` (stem overwriting `x[i]`, three prediction branches,
view/permute, cached-grid refresh, xy/wh decode, per-level flatten and
concatenation over levels). -/
noncomputable def DetectV1.forward {bs nl na no : ℕ}
    {ch h w sc cc rc rg og cg : ℕ → ℕ}
    (A : DetectV1 bs nl na no ch h w sc cc rc rg og cg)
    (x : (i : Fin nl) → T4 bs (ch i) (h i) (w i)) :
    (Fin bs → Fin (totA nl fun k => na * (h k * w k)) → Fin no → ℝ) ×
      ((i : Fin nl) → T4 bs (sc i) (h i) (w i)) ×
      DetectV1 bs nl na no ch h w sc cc rc rg og cg :=
  let x' := fun i => A.stems i (x i)
  let y4 : (i : Fin nl) → T4 bs (rg i + (og i + cg i)) (h i) (w i) := fun i =>
    let cls_feat := A.cls_convs i (x' i)
    let cls_output := A.cls_preds i cls_feat
    let reg_feat := A.reg_convs i (x' i)
    let reg_output := A.reg_preds i reg_feat
    let obj_output := A.obj_preds i reg_feat
    catC reg_output
      (catC (fun b c yy xx => sigmoid (obj_output b c yy xx))
        (fun b c yy xx => sigmoid (cls_output b c yy xx)))
  let y5 : (i : Fin nl) → Fin bs → Fin na → Fin (h i) → Fin (w i) →
      Fin no → ℝ :=
    fun i b a yy xx o => y4 i b (Fin.cast (A.hshape i).symm (fpair a o)) yy xx
  let gridAt : (i : Fin nl) → Fin (h i) → Fin (w i) → ℝ × ℝ :=
    fun i => (A.grid i).getD (fun yy xx => (((xx : ℕ) : ℝ), ((yy : ℕ) : ℝ)))
  let strideAt : Fin nl → ℝ := fun i => A.stride.getD i 0
  let yd : (i : Fin nl) → Fin bs → Fin na → Fin (h i) → Fin (w i) →
      Fin no → ℝ :=
    fun i b a yy xx o =>
      if (o : ℕ) < 2 then
        (y5 i b a yy xx o +
          (if (o : ℕ) = 0 then (gridAt i yy xx).1 else (gridAt i yy xx).2)) *
          strideAt i
      else if (o : ℕ) < 4 then Real.exp (y5 i b a yy xx o) * strideAt i
      else y5 i b a yy xx o
  let out : Fin bs → Fin (totA nl fun k => na * (h k * w k)) → Fin no → ℝ :=
    fun b g o => catLv (fun k => na * (h k * w k)) 0
      (fun i r => yd i b (funpair r).1 (funpair (funpair r).2).1
        (funpair (funpair r).2).2 o) g
  (out, x', { A with grid := fun i => some (gridAt i) })

/-- The attributes of a wrapped YOLOv6 head read by `DetectV2.__init__`
(`yolo/detect_head.py`): as for R3 but `cls_preds`/`reg_preds` are read
unconditionally. -/
structure OldDetectV2 (bs nl nc regMax : ℕ) (use_dfl : Bool)
    (ch h w sc cc rc : ℕ → ℕ) where
  nc' : ℕ
  no : ℕ
  anchors : Option (List ℝ)
  grid : List ℝ
  inplace : Bool
  stride : List ℝ
  projw : Fin (regMax + 1) → ℝ
  stems : (i : Fin nl) → T4 bs (ch i) (h i) (w i) → T4 bs (sc i) (h i) (w i)
  cls_convs : (i : Fin nl) → T4 bs (sc i) (h i) (w i) → T4 bs (cc i) (h i) (w i)
  reg_convs : (i : Fin nl) → T4 bs (sc i) (h i) (w i) → T4 bs (rc i) (h i) (w i)
  cls_preds : (i : Fin nl) → T4 bs (cc i) (h i) (w i) → T4 bs nc (h i) (w i)
  reg_preds : (i : Fin nl) → T4 bs (rc i) (h i) (w i) →
    T4 bs (4 * (regMax + 1)) (h i) (w i)

/-- `DetectV2` adapter: YOLOv6 decoupled head from `yolo/detect_head.py`
(no `use_rvc2` flag; the confidence channel is always the class max). -/
structure DetectV2 (bs nl nc regMax : ℕ) (use_dfl : Bool)
    (ch h w sc cc rc : ℕ → ℕ) where
  nc' : ℕ
  no : ℕ
  anchors : Option (List ℝ)
  grid : List ℝ
  prior_prob : ℝ
  inplace : Bool
  stride : List ℝ
  projw : Fin (regMax + 1) → ℝ
  grid_cell_offset : ℝ
  grid_cell_size : ℝ
  stems : (i : Fin nl) → T4 bs (ch i) (h i) (w i) → T4 bs (sc i) (h i) (w i)
  cls_convs : (i : Fin nl) → T4 bs (sc i) (h i) (w i) → T4 bs (cc i) (h i) (w i)
  reg_convs : (i : Fin nl) → T4 bs (sc i) (h i) (w i) → T4 bs (rc i) (h i) (w i)
  cls_preds : (i : Fin nl) → T4 bs (cc i) (h i) (w i) → T4 bs nc (h i) (w i)
  reg_preds : (i : Fin nl) → T4 bs (rc i) (h i) (w i) →
    T4 bs (4 * (regMax + 1)) (h i) (w i)

/-- `DetectV2.__init__(old_detect)`: copies the head's layers and
hyperparameters, with `stride` set to the constant `[8, 16, 32]`. -/
noncomputable def DetectV2.init {bs nl nc regMax : ℕ} {ud : Bool}
    {ch h w sc cc rc : ℕ → ℕ}
    (old : OldDetectV2 bs nl nc regMax ud ch h w sc cc rc) :
    DetectV2 bs nl nc regMax ud ch h w sc cc rc :=
  { nc' := old.nc', no := old.no, anchors := old.anchors, grid := old.grid,
    prior_prob := 1e-2, inplace := old.inplace,
    stride := [8, 16, 32],
    projw := old.projw, grid_cell_offset := 0.5, grid_cell_size := 5.0,
    stems := old.stems, cls_convs := old.cls_convs, reg_convs := old.reg_convs,
    cls_preds := old.cls_preds, reg_preds := old.reg_preds }

/-- `DetectV2.forward(x)` on one level: stem, decoupled branches, optional
DFL decode (`reshape`/`permute`/softmax/`proj_conv`/`[:, 0]`/`reshape`),
sigmoid class scores, confidence = class max, concatenated
`[reg_output, conf, cls_output]`. -/
noncomputable def DetectV2.regDec {bs nl nc regMax : ℕ} {ud : Bool}
    {ch h w sc cc rc : ℕ → ℕ} (A : DetectV2 bs nl nc regMax ud ch h w sc cc rc)
    (xi : (i : Fin nl) → T4 bs (sc i) (h i) (w i)) (i : Fin nl) :
    T4 bs (regOutCh ud regMax) (h i) (w i) :=
  let reg_feat := A.reg_convs i (xi i)
  let reg_output := A.reg_preds i reg_feat
  match ud with
  | true =>
    let r4 : Fin bs → Fin (regMax + 1) → Fin 4 → Fin (h i * w i) → ℝ :=
      fun b rb q s => reg_output b (fpair q rb) (funpair s).1 (funpair s).2
    let pr : Fin bs → Fin 1 → Fin 4 → Fin (h i * w i) → ℝ :=
      fun b _ q s => ∑ rb, A.projw rb * softmax (fun rb' => r4 b rb' q s) rb
    fun b q yy xx => pr b ⟨0, Nat.one_pos⟩ q (fpair yy xx)
  | false => reg_output

/-- One level of `DetectV2.forward`: decoupled branches, optional DFL
decode (`DetectV2.regDec`), sigmoid class scores, confidence = class max,
concatenated `[reg_output, conf, cls_output]`. -/
noncomputable def DetectV2.forwardLevel {bs nl nc regMax : ℕ} {ud : Bool}
    {ch h w sc cc rc : ℕ → ℕ} (A : DetectV2 bs nl nc regMax ud ch h w sc cc rc)
    (xi : (i : Fin nl) → T4 bs (sc i) (h i) (w i)) (i : Fin nl) :
    T4 bs (regOutCh ud regMax + (1 + nc)) (h i) (w i) :=
  let cls_feat := A.cls_convs i (xi i)
  let cls_output := A.cls_preds i cls_feat
  let clsS : T4 bs nc (h i) (w i) :=
    fun b j yy xx => sigmoid (cls_output b j yy xx)
  let conf : T4 bs 1 (h i) (w i) :=
    fun b _ yy xx => maxOver (fun j => clsS b j yy xx)
  catC (A.regDec xi i) (catC conf clsS)

/-- `DetectV2.forward(x)`: overwrites each `x[i]` with `stems[i](x[i])`;
no adapter attribute is assigned. -/
noncomputable def DetectV2.forward {bs nl nc regMax : ℕ} {ud : Bool}
    {ch h w sc cc rc : ℕ → ℕ} (A : DetectV2 bs nl nc regMax ud ch h w sc cc rc)
    (x : (i : Fin nl) → T4 bs (ch i) (h i) (w i)) :
    ((i : Fin nl) → T4 bs (regOutCh ud regMax + (1 + nc)) (h i) (w i)) ×
      ((i : Fin nl) → T4 bs (sc i) (h i) (w i)) ×
      DetectV2 bs nl nc regMax ud ch h w sc cc rc :=
  let x' := fun i => A.stems i (x i)
  (fun i => A.forwardLevel x' i, x', A)

/-- Concatenate the per-level `view(bs, c, -1)` flattenings along the
anchor dimension (`torch.cat([xi.view(shape[0], no, -1) for xi in x], 2)`). -/
noncomputable def catLv3 {bs c nl : ℕ} {h w : ℕ → ℕ}
    (t : (i : Fin nl) → T4 bs c (h i) (w i)) :
    T3 bs c (totA nl fun k => h k * w k) :=
  fun b ci => catLv (fun k => h k * w k) 0 (fun i p => flatT4 (t i) b ci p)

/-- The attributes of a wrapped YOLOv8 `Detect` head read by
`DetectV8.__init__`.  `dfl` is the copied DFL module, applied to the
concatenated `(bs, reg_max * 4, Σ hᵢ·wᵢ)` box tensor. -/
structure OldDetectV8 (bs nl nc regMax : ℕ) (ch h w : ℕ → ℕ) where
  nc' : ℕ
  nl' : ℕ
  reg_max : ℕ
  no : ℕ
  stride : Fin nl → ℝ
  cv2 : (i : Fin nl) → T4 bs (ch i) (h i) (w i) → T4 bs (regMax * 4) (h i) (w i)
  cv3 : (i : Fin nl) → T4 bs (ch i) (h i) (w i) → T4 bs nc (h i) (w i)
  dfl : T3 bs (regMax * 4) (totA nl fun k => h k * w k) →
    T3 bs 4 (totA nl fun k => h k * w k)
  fAttr : List ℤ
  iAttr : ℕ

/-- `DetectV8` adapter: YOLOv8 Detect head (`heads.py`). -/
structure DetectV8 (bs nl nc regMax : ℕ) (ch h w : ℕ → ℕ) where
  nc' : ℕ
  nl' : ℕ
  reg_max : ℕ
  no : ℕ
  stride : Fin nl → ℝ
  cv2 : (i : Fin nl) → T4 bs (ch i) (h i) (w i) → T4 bs (regMax * 4) (h i) (w i)
  cv3 : (i : Fin nl) → T4 bs (ch i) (h i) (w i) → T4 bs nc (h i) (w i)
  dfl : T3 bs (regMax * 4) (totA nl fun k => h k * w k) →
    T3 bs 4 (totA nl fun k => h k * w k)
  fAttr : List ℤ
  iAttr : ℕ
  use_rvc2 : Bool

/-- `DetectV8.__init__(old_detect, use_rvc2)`: copies every attribute of
the wrapped head (`stride` included). -/
noncomputable def DetectV8.init {bs nl nc regMax : ℕ} {ch h w : ℕ → ℕ}
    (old : OldDetectV8 bs nl nc regMax ch h w) (use_rvc2 : Bool) :
    DetectV8 bs nl nc regMax ch h w :=
  { nc' := old.nc', nl' := old.nl', reg_max := old.reg_max, no := old.no,
    stride := old.stride, cv2 := old.cv2, cv3 := old.cv3, dfl := old.dfl,
    fAttr := old.fAttr, iAttr := old.iAttr, use_rvc2 := use_rvc2 }

/-- `x[i] = torch.cat((self.cv2[i](x[i]), self.cv3[i](x[i])), 1)`: the
per-level tensor that `DetectV8.forward` (and the other V8-family
forwards) writes back into the caller's list. -/
noncomputable def DetectV8.xconv {bs nl nc regMax : ℕ} {ch h w : ℕ → ℕ}
    (A : DetectV8 bs nl nc regMax ch h w)
    (x : (i : Fin nl) → T4 bs (ch i) (h i) (w i)) (i : Fin nl) :
    T4 bs (regMax * 4 + nc) (h i) (w i) :=
  catC (A.cv2 i (x i)) (A.cv3 i (x i))

/-- The concatenated `(bs, no, Σ hᵢ·wᵢ)` tensor of `DetectV8.forward`. -/
noncomputable def DetectV8.xcat {bs nl nc regMax : ℕ} {ch h w : ℕ → ℕ}
    (A : DetectV8 bs nl nc regMax ch h w)
    (x : (i : Fin nl) → T4 bs (ch i) (h i) (w i)) :
    T3 bs (regMax * 4 + nc) (totA nl fun k => h k * w k) :=
  catLv3 (A.xconv x)

/-- The `box` half of the `split((reg_max * 4, nc), 1)` in
`DetectV8.forward`. -/
noncomputable def DetectV8.boxRaw {bs nl nc regMax : ℕ} {ch h w : ℕ → ℕ}
    (A : DetectV8 bs nl nc regMax ch h w)
    (x : (i : Fin nl) → T4 bs (ch i) (h i) (w i)) :
    T3 bs (regMax * 4) (totA nl fun k => h k * w k) :=
  fun b c g => A.xcat x b ⟨c, by have := c.isLt; omega⟩ g

/-- The `cls` half of the `split((reg_max * 4, nc), 1)` in
`DetectV8.forward`. -/
noncomputable def DetectV8.clsRaw {bs nl nc regMax : ℕ} {ch h w : ℕ → ℕ}
    (A : DetectV8 bs nl nc regMax ch h w)
    (x : (i : Fin nl) → T4 bs (ch i) (h i) (w i)) :
    T3 bs nc (totA nl fun k => h k * w k) :=
  fun b j g => A.xcat x b ⟨regMax * 4 + j, by have := j.isLt; omega⟩ g

/-- `DetectV8.forward(x)`: per-level conv stacks overwriting `x[i]`,
concatenation over levels, `split` into box/cls, DFL on the box part,
sigmoid class scores, confidence channel (class max if `use_rvc2` else
ones), `y = cat([box, conf, cls_output], 1)`, and the per-level slices
`y[:, :, start:end].view(bs, -1, h, w)`.  Returns (per-level outputs,
final contents of `x`, the adapter instance — no attribute assigned). -/
noncomputable def DetectV8.forward {bs nl nc regMax : ℕ} {ch h w : ℕ → ℕ}
    (A : DetectV8 bs nl nc regMax ch h w)
    (x : (i : Fin nl) → T4 bs (ch i) (h i) (w i)) :
    ((i : Fin nl) → T4 bs (4 + (1 + nc)) (h i) (w i)) ×
      ((i : Fin nl) → T4 bs (regMax * 4 + nc) (h i) (w i)) ×
      DetectV8 bs nl nc regMax ch h w :=
  let box := A.dfl (A.boxRaw x)
  let cls_output : T3 bs nc (totA nl fun k => h k * w k) :=
    fun b j g => sigmoid (A.clsRaw x b j g)
  let conf : T3 bs 1 (totA nl fun k => h k * w k) :=
    if A.use_rvc2 then fun b _ g => maxOver (fun j => cls_output b j g)
    else fun _ _ _ => 1
  let y := catC3 box (catC3 conf cls_output)
  (fun i b c yy xx => y b c (gidx (fun k => h k * w k) i (fpair yy xx)),
   A.xconv x, A)

/-- The attributes of a wrapped YOLOv8 `OBB` head read by
`OBBV8.__init__`: the Detect attributes plus `ne` and `cv4`. -/
structure OldOBBV8 (bs nl nc regMax ne : ℕ) (ch h w : ℕ → ℕ) where
  nc' : ℕ
  nl' : ℕ
  reg_max : ℕ
  no : ℕ
  stride : Fin nl → ℝ
  cv2 : (i : Fin nl) → T4 bs (ch i) (h i) (w i) → T4 bs (regMax * 4) (h i) (w i)
  cv3 : (i : Fin nl) → T4 bs (ch i) (h i) (w i) → T4 bs nc (h i) (w i)
  dfl : T3 bs (regMax * 4) (totA nl fun k => h k * w k) →
    T3 bs 4 (totA nl fun k => h k * w k)
  fAttr : List ℤ
  iAttr : ℕ
  ne' : ℕ
  cv4 : (i : Fin nl) → T4 bs (ch i) (h i) (w i) → T4 bs ne (h i) (w i)

/-- `OBBV8` adapter: YOLOv8 oriented-bounding-box head (`heads.py`). -/
structure OBBV8 (bs nl nc regMax ne : ℕ) (ch h w : ℕ → ℕ) where
  nc' : ℕ
  nl' : ℕ
  reg_max : ℕ
  no : ℕ
  stride : Fin nl → ℝ
  cv2 : (i : Fin nl) → T4 bs (ch i) (h i) (w i) → T4 bs (regMax * 4) (h i) (w i)
  cv3 : (i : Fin nl) → T4 bs (ch i) (h i) (w i) → T4 bs nc (h i) (w i)
  dfl : T3 bs (regMax * 4) (totA nl fun k => h k * w k) →
    T3 bs 4 (totA nl fun k => h k * w k)
  fAttr : List ℤ
  iAttr : ℕ
  ne' : ℕ
  cv4 : (i : Fin nl) → T4 bs (ch i) (h i) (w i) → T4 bs ne (h i) (w i)
  use_rvc2 : Bool

/-- `OBBV8.__init__(old_obb, use_rvc2)`: copies every attribute of the
wrapped head (`stride` included). -/
noncomputable def OBBV8.init {bs nl nc regMax ne : ℕ} {ch h w : ℕ → ℕ}
    (old : OldOBBV8 bs nl nc regMax ne ch h w) (use_rvc2 : Bool) :
    OBBV8 bs nl nc regMax ne ch h w :=
  { nc' := old.nc', nl' := old.nl', reg_max := old.reg_max, no := old.no,
    stride := old.stride, cv2 := old.cv2, cv3 := old.cv3, dfl := old.dfl,
    fAttr := old.fAttr, iAttr := old.iAttr, ne' := old.ne', cv4 := old.cv4,
    use_rvc2 := use_rvc2 }

/-- The OBB theta logits: `cat([cv4[i](x[i]).view(bs, ne, -1)], 2)`,
computed from the original input features before the detection loop
overwrites `x`. -/
noncomputable def OBBV8.angleRaw {bs nl nc regMax ne : ℕ} {ch h w : ℕ → ℕ}
    (A : OBBV8 bs nl nc regMax ne ch h w)
    (x : (i : Fin nl) → T4 bs (ch i) (h i) (w i)) :
    T3 bs ne (totA nl fun k => h k * w k) :=
  catLv3 (fun i => A.cv4 i (x i))

/-- `x[i] = torch.cat((self.cv2[i](x[i]), self.cv3[i](x[i])), 1)` in
`OBBV8.forward`. -/
noncomputable def OBBV8.xconv {bs nl nc regMax ne : ℕ} {ch h w : ℕ → ℕ}
    (A : OBBV8 bs nl nc regMax ne ch h w)
    (x : (i : Fin nl) → T4 bs (ch i) (h i) (w i)) (i : Fin nl) :
    T4 bs (regMax * 4 + nc) (h i) (w i) :=
  catC (A.cv2 i (x i)) (A.cv3 i (x i))

/-- The `cls` half of the channel split in `OBBV8.forward`. -/
noncomputable def OBBV8.clsRaw {bs nl nc regMax ne : ℕ} {ch h w : ℕ → ℕ}
    (A : OBBV8 bs nl nc regMax ne ch h w)
    (x : (i : Fin nl) → T4 bs (ch i) (h i) (w i)) :
    T3 bs nc (totA nl fun k => h k * w k) :=
  fun b j g => catLv3 (A.xconv x) b ⟨regMax * 4 + j, by have := j.isLt; omega⟩ g

/-- The `box` half of the channel split in `OBBV8.forward`. -/
noncomputable def OBBV8.boxRaw {bs nl nc regMax ne : ℕ} {ch h w : ℕ → ℕ}
    (A : OBBV8 bs nl nc regMax ne ch h w)
    (x : (i : Fin nl) → T4 bs (ch i) (h i) (w i)) :
    T3 bs (regMax * 4) (totA nl fun k => h k * w k) :=
  fun b c g => catLv3 (A.xconv x) b ⟨c, by have := c.isLt; omega⟩ g

/-- `OBBV8.forward(x)`: the theta logits are gathered from the original
features and decoded as `(angle.sigmoid() - 0.25) * π`; the detection part
is as in `DetectV8.forward`; the angle tensor is appended as the last
output (`outputs.append(angle)`), here the second component. -/
noncomputable def OBBV8.forward {bs nl nc regMax ne : ℕ} {ch h w : ℕ → ℕ}
    (A : OBBV8 bs nl nc regMax ne ch h w)
    (x : (i : Fin nl) → T4 bs (ch i) (h i) (w i)) :
    ((i : Fin nl) → T4 bs (4 + (1 + nc)) (h i) (w i)) ×
      T3 bs ne (totA nl fun k => h k * w k) ×
      ((i : Fin nl) → T4 bs (regMax * 4 + nc) (h i) (w i)) ×
      OBBV8 bs nl nc regMax ne ch h w :=
  let angle : T3 bs ne (totA nl fun k => h k * w k) :=
    fun b e g => (sigmoid (A.angleRaw x b e g) - 0.25) * Real.pi
  let box := A.dfl (A.boxRaw x)
  let cls_output : T3 bs nc (totA nl fun k => h k * w k) :=
    fun b j g => sigmoid (A.clsRaw x b j g)
  let conf : T3 bs 1 (totA nl fun k => h k * w k) :=
    if A.use_rvc2 then fun b _ g => maxOver (fun j => cls_output b j g)
    else fun _ _ _ => 1
  let y := catC3 box (catC3 conf cls_output)
  (fun i b c yy xx => y b c (gidx (fun k => h k * w k) i (fpair yy xx)),
   angle, A.xconv x, A)

/-- The attributes of a wrapped YOLOv8 `Pose` head read by
`PoseV8.__init__`: the Detect attributes plus `kpt_shape`, `nk`, `cv4`. -/
structure OldPoseV8 (bs nl nc regMax nk0 ndim : ℕ) (ch h w : ℕ → ℕ) where
  nc' : ℕ
  nl' : ℕ
  reg_max : ℕ
  no : ℕ
  stride : Fin nl → ℝ
  cv2 : (i : Fin nl) → T4 bs (ch i) (h i) (w i) → T4 bs (regMax * 4) (h i) (w i)
  cv3 : (i : Fin nl) → T4 bs (ch i) (h i) (w i) → T4 bs nc (h i) (w i)
  dfl : T3 bs (regMax * 4) (totA nl fun k => h k * w k) →
    T3 bs 4 (totA nl fun k => h k * w k)
  fAttr : List ℤ
  iAttr : ℕ
  kpt_shape : ℕ × ℕ
  nk : ℕ
  cv4 : (i : Fin nl) → T4 bs (ch i) (h i) (w i) → T4 bs (nk0 * ndim) (h i) (w i)

/-- `PoseV8` adapter: YOLOv8 Pose (keypoints) head (`heads.py`).
`shape`, `anchors`, `strides` are the cached values that
`PoseV8.forward` assigns (`None`/`torch.empty(0)` before the first call,
modelled by `none` and all-zero functions). -/
structure PoseV8 (bs nl nc regMax nk0 ndim : ℕ) (ch h w : ℕ → ℕ) where
  nc' : ℕ
  nl' : ℕ
  reg_max : ℕ
  no : ℕ
  stride : Fin nl → ℝ
  cv2 : (i : Fin nl) → T4 bs (ch i) (h i) (w i) → T4 bs (regMax * 4) (h i) (w i)
  cv3 : (i : Fin nl) → T4 bs (ch i) (h i) (w i) → T4 bs nc (h i) (w i)
  dfl : T3 bs (regMax * 4) (totA nl fun k => h k * w k) →
    T3 bs 4 (totA nl fun k => h k * w k)
  fAttr : List ℤ
  iAttr : ℕ
  kpt_shape : ℕ × ℕ
  nk : ℕ
  cv4 : (i : Fin nl) → T4 bs (ch i) (h i) (w i) → T4 bs (nk0 * ndim) (h i) (w i)
  use_rvc2 : Bool
  shape : Option ℕ
  anchors : Fin 2 → Fin (totA nl fun k => h k * w k) → ℝ
  strides : Fin (totA nl fun k => h k * w k) → ℝ

/-- `PoseV8.__init__(old_kpts, use_rvc2)`: copies every attribute of the
wrapped head (`stride` included); the cache starts out empty. -/
noncomputable def PoseV8.init {bs nl nc regMax nk0 ndim : ℕ} {ch h w : ℕ → ℕ}
    (old : OldPoseV8 bs nl nc regMax nk0 ndim ch h w) (use_rvc2 : Bool) :
    PoseV8 bs nl nc regMax nk0 ndim ch h w :=
  { nc' := old.nc', nl' := old.nl', reg_max := old.reg_max, no := old.no,
    stride := old.stride, cv2 := old.cv2, cv3 := old.cv3, dfl := old.dfl,
    fAttr := old.fAttr, iAttr := old.iAttr, kpt_shape := old.kpt_shape,
    nk := old.nk, cv4 := old.cv4, use_rvc2 := use_rvc2,
    shape := none, anchors := fun _ _ => 0, strides := fun _ => 0 }

/-- The raw keypoint tensor
`cat([cv4[i](x[i]).view(bs, nk, -1)], -1)`, from the original input
features (line 509, before the detection loop overwrites `x`). -/
noncomputable def PoseV8.kptRaw {bs nl nc regMax nk0 ndim : ℕ} {ch h w : ℕ → ℕ}
    (A : PoseV8 bs nl nc regMax nk0 ndim ch h w)
    (x : (i : Fin nl) → T4 bs (ch i) (h i) (w i)) :
    T3 bs (nk0 * ndim) (totA nl fun k => h k * w k) :=
  catLv3 (fun i => A.cv4 i (x i))

/-- `x[i] = torch.cat((self.cv2[i](x[i]), self.cv3[i](x[i])), 1)` in
`PoseV8.forward`. -/
noncomputable def PoseV8.xconv {bs nl nc regMax nk0 ndim : ℕ} {ch h w : ℕ → ℕ}
    (A : PoseV8 bs nl nc regMax nk0 ndim ch h w)
    (x : (i : Fin nl) → T4 bs (ch i) (h i) (w i)) (i : Fin nl) :
    T4 bs (regMax * 4 + nc) (h i) (w i) :=
  catC (A.cv2 i (x i)) (A.cv3 i (x i))

/-- The `cls` half of the channel split in `PoseV8.forward`. -/
noncomputable def PoseV8.clsRaw {bs nl nc regMax nk0 ndim : ℕ} {ch h w : ℕ → ℕ}
    (A : PoseV8 bs nl nc regMax nk0 ndim ch h w)
    (x : (i : Fin nl) → T4 bs (ch i) (h i) (w i)) :
    T3 bs nc (totA nl fun k => h k * w k) :=
  fun b j g => catLv3 (A.xconv x) b ⟨regMax * 4 + j, by have := j.isLt; omega⟩ g

/-- The `box` half of the channel split in `PoseV8.forward`. -/
noncomputable def PoseV8.boxRaw {bs nl nc regMax nk0 ndim : ℕ} {ch h w : ℕ → ℕ}
    (A : PoseV8 bs nl nc regMax nk0 ndim ch h w)
    (x : (i : Fin nl) → T4 bs (ch i) (h i) (w i)) :
    T3 bs (regMax * 4) (totA nl fun k => h k * w k) :=
  fun b c g => catLv3 (A.xconv x) b ⟨c, by have := c.isLt; omega⟩ g

/-- The adapter after `PoseV8.forward`'s cache refresh: when the cached
`shape` differs from the batch size, `anchors`/`strides` are recomputed by
`make_anchors(x, self.stride, 0.5)` and transposed, and `shape` is set. -/
noncomputable def PoseV8.cacheUpd {bs nl nc regMax nk0 ndim : ℕ}
    {ch h w : ℕ → ℕ} (A : PoseV8 bs nl nc regMax nk0 ndim ch h w) :
    PoseV8 bs nl nc regMax nk0 ndim ch h w :=
  if A.shape = some bs then A
  else
    { A with
      anchors := fun d g => (make_anchors h w A.stride 0.5).1 g d,
      strides := fun g => (make_anchors h w A.stride 0.5).2 g,
      shape := some bs }

/-- `PoseV8.kpts_decode(bs, kpts)`: `kpts.view(bs, *kpt_shape, -1)` splits
the channel `c` into keypoint `c / ndim` and coordinate `c % ndim`; the
two x,y coordinates become `(raw * 2.0 + (anchors - 0.5)) * strides`; when
`kpt_shape[1] == 3` the third coordinate gets a sigmoid; the result is
flattened back to `(bs, nk, -1)`.  (For `kpt_shape[1] ∉ \x7b2, 3\x7d` the
source's final `view` misaligns; that regime is given the junk value 0.) -/
noncomputable def PoseV8.kpts_decode {bs nl nc regMax nk0 ndim : ℕ}
    {ch h w : ℕ → ℕ} (A : PoseV8 bs nl nc regMax nk0 ndim ch h w)
    (kpts : T3 bs (nk0 * ndim) (totA nl fun k => h k * w k)) :
    T3 bs (nk0 * ndim) (totA nl fun k => h k * w k) :=
  fun b c p =>
    if hd : (c : ℕ) % ndim < 2 then
      (kpts b c p * 2.0 + (A.anchors ⟨(c : ℕ) % ndim, hd⟩ p - 0.5)) *
        A.strides p
    else if ndim = 3 then sigmoid (kpts b c p)
    else 0

/-- `PoseV8.forward(x)`: keypoint logits from the original features,
per-level conv stacks overwriting `x[i]`, cache refresh, box/cls split,
DFL, sigmoid scores, confidence, per-level slices of
`y = cat([box, conf, cls_output], 1)`, and the decoded keypoints appended
as the last output.  Returns (per-level outputs, decoded keypoints, final
contents of `x`, the adapter with its refreshed cache). -/
noncomputable def PoseV8.forward {bs nl nc regMax nk0 ndim : ℕ}
    {ch h w : ℕ → ℕ} (A : PoseV8 bs nl nc regMax nk0 ndim ch h w)
    (x : (i : Fin nl) → T4 bs (ch i) (h i) (w i)) :
    ((i : Fin nl) → T4 bs (4 + (1 + nc)) (h i) (w i)) ×
      T3 bs (nk0 * ndim) (totA nl fun k => h k * w k) ×
      ((i : Fin nl) → T4 bs (regMax * 4 + nc) (h i) (w i)) ×
      PoseV8 bs nl nc regMax nk0 ndim ch h w :=
  let kpt := A.kptRaw x
  let A' := A.cacheUpd
  let box := A.dfl (A.boxRaw x)
  let cls_output : T3 bs nc (totA nl fun k => h k * w k) :=
    fun b j g => sigmoid (A.clsRaw x b j g)
  let conf : T3 bs 1 (totA nl fun k => h k * w k) :=
    if A.use_rvc2 then fun b _ g => maxOver (fun j => cls_output b j g)
    else fun _ _ _ => 1
  let y := catC3 box (catC3 conf cls_output)
  (fun i b c yy xx => y b c (gidx (fun k => h k * w k) i (fpair yy xx)),
   A'.kpts_decode kpt, A.xconv x, A')

/-- The attributes of a wrapped YOLOv8 `Segment` head read by
`SegmentV8.__init__` (the bound `detect` method reference is not
modelled). -/
structure OldSegmentV8 (bs nl nc regMax nm pc ph pw : ℕ) (ch h w : ℕ → ℕ) where
  nc' : ℕ
  nl' : ℕ
  reg_max : ℕ
  no : ℕ
  stride : Fin nl → ℝ
  cv2 : (i : Fin nl) → T4 bs (ch i) (h i) (w i) → T4 bs (regMax * 4) (h i) (w i)
  cv3 : (i : Fin nl) → T4 bs (ch i) (h i) (w i) → T4 bs nc (h i) (w i)
  dfl : T3 bs (regMax * 4) (totA nl fun k => h k * w k) →
    T3 bs 4 (totA nl fun k => h k * w k)
  fAttr : List ℤ
  iAttr : ℕ
  nm' : ℕ
  npr : ℕ
  proto : T4 bs (ch 0) (h 0) (w 0) → T4 bs pc ph pw
  cv4 : (i : Fin nl) → T4 bs (ch i) (h i) (w i) → T4 bs nm (h i) (w i)
  hnl : 0 < nl

/-- `SegmentV8` adapter: YOLOv8 segmentation head (`heads.py`). -/
structure SegmentV8 (bs nl nc regMax nm pc ph pw : ℕ) (ch h w : ℕ → ℕ) where
  nc' : ℕ
  nl' : ℕ
  reg_max : ℕ
  no : ℕ
  stride : Fin nl → ℝ
  cv2 : (i : Fin nl) → T4 bs (ch i) (h i) (w i) → T4 bs (regMax * 4) (h i) (w i)
  cv3 : (i : Fin nl) → T4 bs (ch i) (h i) (w i) → T4 bs nc (h i) (w i)
  dfl : T3 bs (regMax * 4) (totA nl fun k => h k * w k) →
    T3 bs 4 (totA nl fun k => h k * w k)
  fAttr : List ℤ
  iAttr : ℕ
  nm' : ℕ
  npr : ℕ
  proto : T4 bs (ch 0) (h 0) (w 0) → T4 bs pc ph pw
  cv4 : (i : Fin nl) → T4 bs (ch i) (h i) (w i) → T4 bs nm (h i) (w i)
  use_rvc2 : Bool
  hnl : 0 < nl

/-- `SegmentV8.__init__(old_segment, use_rvc2)`: copies every attribute of
the wrapped head (`stride` included). -/
noncomputable def SegmentV8.init {bs nl nc regMax nm pc ph pw : ℕ}
    {ch h w : ℕ → ℕ} (old : OldSegmentV8 bs nl nc regMax nm pc ph pw ch h w)
    (use_rvc2 : Bool) : SegmentV8 bs nl nc regMax nm pc ph pw ch h w :=
  { nc' := old.nc', nl' := old.nl', reg_max := old.reg_max, no := old.no,
    stride := old.stride, cv2 := old.cv2, cv3 := old.cv3, dfl := old.dfl,
    fAttr := old.fAttr, iAttr := old.iAttr, nm' := old.nm', npr := old.npr,
    proto := old.proto, cv4 := old.cv4, use_rvc2 := use_rvc2, hnl := old.hnl }

/-- `x[i] = torch.cat((self.cv2[i](x[i]), self.cv3[i](x[i])), 1)` in
`SegmentV8.forward`. -/
noncomputable def SegmentV8.xconv {bs nl nc regMax nm pc ph pw : ℕ}
    {ch h w : ℕ → ℕ} (A : SegmentV8 bs nl nc regMax nm pc ph pw ch h w)
    (x : (i : Fin nl) → T4 bs (ch i) (h i) (w i)) (i : Fin nl) :
    T4 bs (regMax * 4 + nc) (h i) (w i) :=
  catC (A.cv2 i (x i)) (A.cv3 i (x i))

/-- The `cls` half of the channel split in `SegmentV8.forward`. -/
noncomputable def SegmentV8.clsRaw {bs nl nc regMax nm pc ph pw : ℕ}
    {ch h w : ℕ → ℕ} (A : SegmentV8 bs nl nc regMax nm pc ph pw ch h w)
    (x : (i : Fin nl) → T4 bs (ch i) (h i) (w i)) :
    T3 bs nc (totA nl fun k => h k * w k) :=
  fun b j g => catLv3 (A.xconv x) b ⟨regMax * 4 + j, by have := j.isLt; omega⟩ g

/-- The `box` half of the channel split in `SegmentV8.forward`. -/
noncomputable def SegmentV8.boxRaw {bs nl nc regMax nm pc ph pw : ℕ}
    {ch h w : ℕ → ℕ} (A : SegmentV8 bs nl nc regMax nm pc ph pw ch h w)
    (x : (i : Fin nl) → T4 bs (ch i) (h i) (w i)) :
    T3 bs (regMax * 4) (totA nl fun k => h k * w k) :=
  fun b c g => catLv3 (A.xconv x) b ⟨c, by have := c.isLt; omega⟩ g

/-- `SegmentV8.forward(x)`: mask protos from `x[0]`, per-level mask
coefficients from the original features (`cv4[i](x[i]).view(bs, nm, -1)`,
re-viewed to `(bs, nm, h, w)` in the output loop), then the Detect part;
the output list interleaves per level the mask-coefficient and detection
tensors and ends with the protos.  Returns (per-level mask coefficients,
per-level detection outputs, protos, final contents of `x`, adapter). -/
noncomputable def SegmentV8.forward {bs nl nc regMax nm pc ph pw : ℕ}
    {ch h w : ℕ → ℕ} (A : SegmentV8 bs nl nc regMax nm pc ph pw ch h w)
    (x : (i : Fin nl) → T4 bs (ch i) (h i) (w i)) :
    ((i : Fin nl) → T4 bs nm (h i) (w i)) ×
      ((i : Fin nl) → T4 bs (4 + (1 + nc)) (h i) (w i)) ×
      T4 bs pc ph pw ×
      ((i : Fin nl) → T4 bs (regMax * 4 + nc) (h i) (w i)) ×
      SegmentV8 bs nl nc regMax nm pc ph pw ch h w :=
  let p := A.proto (x ⟨0, A.hnl⟩)
  let mc := fun i => flatT4 (A.cv4 i (x i))
  let box := A.dfl (A.boxRaw x)
  let cls_output : T3 bs nc (totA nl fun k => h k * w k) :=
    fun b j g => sigmoid (A.clsRaw x b j g)
  let conf : T3 bs 1 (totA nl fun k => h k * w k) :=
    if A.use_rvc2 then fun b _ g => maxOver (fun j => cls_output b j g)
    else fun _ _ _ => 1
  let y := catC3 box (catC3 conf cls_output)
  (fun i b c yy xx => mc i b c (fpair yy xx),
   fun i b c yy xx => y b c (gidx (fun k => h k * w k) i (fpair yy xx)),
   p, A.xconv x, A)

/-- The attributes of a wrapped YOLOv8 classification head read by
`ClassifyV8.__init__`.  When the input is a list it is concatenated along
channels, so `conv` takes the channel concatenation of the levels; all
levels share the spatial size `(hh, ww)`. -/
structure OldClassifyV8 (bs nl : ℕ) (ch : ℕ → ℕ)
    (hh ww c2 h2 w2 c3 h3 w3 nf : ℕ) where
  conv : T4 bs (totA nl ch) hh ww → T4 bs c2 h2 w2
  pool : T4 bs c2 h2 w2 → T4 bs c3 h3 w3
  drop : T2 bs (c3 * (h3 * w3)) → T2 bs (c3 * (h3 * w3))
  linear : T2 bs (c3 * (h3 * w3)) → T2 bs nf
  fAttr : List ℤ
  iAttr : ℕ

/-- `ClassifyV8` adapter: YOLOv8 classification head (`heads.py`). -/
structure ClassifyV8 (bs nl : ℕ) (ch : ℕ → ℕ)
    (hh ww c2 h2 w2 c3 h3 w3 nf : ℕ) where
  conv : T4 bs (totA nl ch) hh ww → T4 bs c2 h2 w2
  pool : T4 bs c2 h2 w2 → T4 bs c3 h3 w3
  drop : T2 bs (c3 * (h3 * w3)) → T2 bs (c3 * (h3 * w3))
  linear : T2 bs (c3 * (h3 * w3)) → T2 bs nf
  fAttr : List ℤ
  iAttr : ℕ
  use_rvc2 : Bool

/-- `ClassifyV8.__init__(old_classify, use_rvc2)`: copies every attribute
of the wrapped head. -/
noncomputable def ClassifyV8.init {bs nl : ℕ} {ch : ℕ → ℕ}
    {hh ww c2 h2 w2 c3 h3 w3 nf : ℕ}
    (old : OldClassifyV8 bs nl ch hh ww c2 h2 w2 c3 h3 w3 nf)
    (use_rvc2 : Bool) : ClassifyV8 bs nl ch hh ww c2 h2 w2 c3 h3 w3 nf :=
  { conv := old.conv, pool := old.pool, drop := old.drop,
    linear := old.linear, fAttr := old.fAttr, iAttr := old.iAttr,
    use_rvc2 := use_rvc2 }

/-- `ClassifyV8.forward(x)` on a list input: `x = torch.cat(x, 1)` (a
rebinding of the local name — the caller's list is not written to), then
`linear(drop(pool(conv(x)).flatten(1)))`.  Returns (output, the caller's
list — unchanged, the adapter instance). -/
noncomputable def ClassifyV8.forward {bs nl : ℕ} {ch : ℕ → ℕ}
    {hh ww c2 h2 w2 c3 h3 w3 nf : ℕ}
    (A : ClassifyV8 bs nl ch hh ww c2 h2 w2 c3 h3 w3 nf)
    (x : (i : Fin nl) → T4 bs (ch i) hh ww) :
    T2 bs nf × ((i : Fin nl) → T4 bs (ch i) hh ww) ×
      ClassifyV8 bs nl ch hh ww c2 h2 w2 c3 h3 w3 nf :=
  let xcat : T4 bs (totA nl ch) hh ww :=
    fun b c yy xx => catLv ch 0 (fun i ci => x i b ci yy xx) c
  let pooled := A.pool (A.conv xcat)
  let flat : T2 bs (c3 * (h3 * w3)) :=
    fun b f => pooled b (funpair f).1 (funpair (funpair f).2).1
      (funpair (funpair f).2).2
  (A.linear (A.drop flat), x, A)

/-! ## Claim theorems -/

/-- C4: for every list of feature-map shapes and equally long stride list,
`make_anchors` returns one anchor point per feature-map cell and one
matching stride row: the anchor tensor has `∑ i, h i * w i` rows; the row
of level `i` for cell `(yy, xx)` (at global row-major offset
`accL + yy * w + xx`, i.e. `gidx i (fpair yy xx)`) is
`(xx + grid_cell_offset, yy + grid_cell_offset)`; and the stride tensor
has the same rows, the row of level `i` being `strides[i]`. -/
theorem claim_C4 {nl : ℕ} (h w : ℕ → ℕ) (strides : Fin nl → ℝ) (off : ℝ)
    (i : Fin nl) (yy : Fin (h i)) (xx : Fin (w i)) :
    totA nl (fun k => h k * w k) = ∑ k : Fin nl, h k * w k ∧
    (make_anchors h w strides off).1
        (gidx (fun k => h k * w k) i (fpair yy xx)) ⟨0, by omega⟩ =
      (xx : ℕ) + off ∧
    (make_anchors h w strides off).1
        (gidx (fun k => h k * w k) i (fpair yy xx)) ⟨1, by omega⟩ =
      (yy : ℕ) + off ∧
    (make_anchors h w strides off).2
        (gidx (fun k => h k * w k) i (fpair yy xx)) = strides i := by
  refine ⟨accL_eq_sum _ nl, ?_, ?_, ?_⟩
  · simp only [make_anchors]
    rw [catLv_gidx]
    simp [funpair_fpair]
  · simp only [make_anchors]
    rw [catLv_gidx]
    simp [funpair_fpair]
  · simp only [make_anchors]
    rw [catLv_gidx]

/-- C10: `DetectV5.forward` and `DetectV7.forward` compute the same
function: for an adapter with layers `m` and any input list `x`, both
return the output list whose `i`-th element is `sigmoid (m i (x i))`
(pointwise), so a V7 adapter carrying the same copied layers produces the
same outputs as the V5 adapter. -/
theorem claim_C10 {bs nl : ℕ} {ch oc h w : ℕ → ℕ}
    (A : DetectV5 bs nl ch oc h w)
    (x : (i : Fin nl) → T4 bs (ch i) (h i) (w i)) :
    (DetectV5.forward A x).1 =
      (fun i b c yy xx => sigmoid (A.m i (x i) b c yy xx)) ∧
    (DetectV7.forward (v7OfV5 A) x).1 =
      (fun i b c yy xx => sigmoid (A.m i (x i) b c yy xx)) ∧
    (DetectV7.forward (v7OfV5 A) x).1 = (DetectV5.forward A x).1 :=
  ⟨rfl, rfl, rfl⟩

/-- A concrete wrapped YOLOv6 R3 head whose build-time strides are
`[4, 8, 16]` (all learned layers are zero maps; shapes are 1×1). -/
noncomputable def oldR3demo :
    OldDetectV6R3 1 1 1 0 true (fun _ => 1) (fun _ => 1) (fun _ => 1)
      (fun _ => 1) (fun _ => 1) (fun _ => 1) :=
  { nc' := 1, no := 6, anchors := none, grid := [], inplace := true,
    stride := [4, 8, 16], projw := fun _ => 0,
    stems := fun _ _ _ _ _ _ => 0,
    cls_convs := fun _ _ _ _ _ _ => 0,
    reg_convs := fun _ _ _ _ _ _ => 0,
    cls_preds := fun _ _ _ _ _ _ => 0,
    reg_preds := fun _ _ _ _ _ _ => 0 }

/-- C5 counterexample: `DetectV6R3.__init__` sets
`stride = torch.tensor([8, 16, 32])` instead of copying the wrapped
head's stride, so an R3 head built with strides `[4, 8, 16]` yields an
adapter whose stride differs from the wrapped head's. -/
theorem claim_C5_cex :
    (DetectV6R3.init oldR3demo true).stride = [8, 16, 32] ∧
    oldR3demo.stride = [4, 8, 16] ∧
    (DetectV6R3.init oldR3demo true).stride ≠ oldR3demo.stride := by
  refine ⟨rfl, rfl, ?_⟩
  intro hEq
  rw [show (DetectV6R3.init oldR3demo true).stride = [8, 16, 32] from rfl,
    show oldR3demo.stride = [4, 8, 16] from rfl] at hEq
  norm_num at hEq

/-- C5 amended: every adapter constructor copies its layers and scalar
hyperparameters from the wrapped head, and `DetectV5`, `DetectV7`,
`DetectV6R4s`, `DetectV6R4m`, `DetectV8`, `OBBV8`, `PoseV8` and
`SegmentV8` also copy `stride`; but `DetectV6R1`, `DetectV6R3`,
`DetectV1` and `DetectV2` set `stride` to the constant `[8, 16, 32]`
regardless of the wrapped head (`ClassifyV8` has no stride). -/
theorem claim_C5_amended :
    (∀ (bs nl : ℕ) (ch oc h w : ℕ → ℕ) (old : OldDetectV5 bs nl ch oc h w),
      (DetectV5.init old).stride = old.stride) ∧
    (∀ (bs nl : ℕ) (ch oc h w : ℕ → ℕ) (old : OldDetectV7 bs nl ch oc h w),
      (DetectV7.init old).stride = old.stride) ∧
    (∀ (bs nl nc : ℕ) (ch h w sc cc rc rg : ℕ → ℕ)
      (old : OldDetectV6R4s bs nl nc ch h w sc cc rc rg) (r : Bool),
      (DetectV6R4s.init old r).stride = old.stride) ∧
    (∀ (bs nl nc regMax : ℕ) (ud : Bool) (ch h w sc cc rc : ℕ → ℕ)
      (old : OldDetectV6R4m bs nl nc regMax ud ch h w sc cc rc) (r : Bool),
      (DetectV6R4m.init old r).stride = old.stride) ∧
    (∀ (bs nl nc regMax : ℕ) (ch h w : ℕ → ℕ)
      (old : OldDetectV8 bs nl nc regMax ch h w) (r : Bool),
      (DetectV8.init old r).stride = old.stride) ∧
    (∀ (bs nl nc regMax ne : ℕ) (ch h w : ℕ → ℕ)
      (old : OldOBBV8 bs nl nc regMax ne ch h w) (r : Bool),
      (OBBV8.init old r).stride = old.stride) ∧
    (∀ (bs nl nc regMax nk0 ndim : ℕ) (ch h w : ℕ → ℕ)
      (old : OldPoseV8 bs nl nc regMax nk0 ndim ch h w) (r : Bool),
      (PoseV8.init old r).stride = old.stride) ∧
    (∀ (bs nl nc regMax nm pc ph pw : ℕ) (ch h w : ℕ → ℕ)
      (old : OldSegmentV8 bs nl nc regMax nm pc ph pw ch h w) (r : Bool),
      (SegmentV8.init old r).stride = old.stride) ∧
    (∀ (bs nl na no : ℕ) (ch h w sc cc rc rg og cg : ℕ → ℕ)
      (old : OldDetectV6R1 bs nl na no ch h w sc cc rc rg og cg),
      (DetectV6R1.init old).stride = [8, 16, 32]) ∧
    (∀ (bs nl nc regMax : ℕ) (ud : Bool) (ch h w sc cc rc : ℕ → ℕ)
      (old : OldDetectV6R3 bs nl nc regMax ud ch h w sc cc rc) (r : Bool),
      (DetectV6R3.init old r).stride = [8, 16, 32]) ∧
    (∀ (bs nl na no : ℕ) (ch h w sc cc rc rg og cg : ℕ → ℕ)
      (old : OldDetectV1 bs nl na no ch h w sc cc rc rg og cg),
      (DetectV1.init old).stride = [8, 16, 32]) ∧
    (∀ (bs nl nc regMax : ℕ) (ud : Bool) (ch h w sc cc rc : ℕ → ℕ)
      (old : OldDetectV2 bs nl nc regMax ud ch h w sc cc rc),
      (DetectV2.init old).stride = [8, 16, 32]) :=
  by
  refine ⟨?_, ?_, ?_, ?_, ?_, ?_, ?_, ?_, ?_, ?_, ?_, ?_⟩ <;> intros <;> rfl

/-- A concrete wrapped Pose head (zero layers, 1×1 shapes, one keypoint
with two coordinates). -/
noncomputable def oldPoseDemo :
    OldPoseV8 1 1 1 1 1 2 (fun _ => 1) (fun _ => 1) (fun _ => 1) :=
  { nc' := 1, nl' := 1, reg_max := 1, no := 5, stride := fun _ => 8,
    cv2 := fun _ _ _ _ _ _ => 0, cv3 := fun _ _ _ _ _ _ => 0,
    dfl := fun _ _ _ _ => 0, fAttr := [], iAttr := 0,
    kpt_shape := (1, 2), nk := 2, cv4 := fun _ _ _ _ _ _ => 0 }

/-- The Pose adapter built from `oldPoseDemo` (cached `shape` is `None`). -/
noncomputable def poseDemo : PoseV8 1 1 1 1 1 2 (fun _ => 1) (fun _ => 1) (fun _ => 1) :=
  PoseV8.init oldPoseDemo true

/-- An all-zero input feature list for `poseDemo`. -/
noncomputable def xPoseDemo : (i : Fin 1) → T4 1 1 1 1 := fun _ _ _ _ _ => 0

/-- C2 counterexample: the first call to `PoseV8.forward` assigns the
instance attributes `anchors`, `strides` and `shape` (lines 518–520 of
`heads.py`): on an adapter fresh out of `__init__`, `shape` is `None`
before the call and the batch size after, so `forward` does not leave
every per-instance attribute unchanged. -/
theorem claim_C2_cex :
    poseDemo.shape = none ∧
    ((PoseV8.forward poseDemo xPoseDemo).2.2.2).shape = some 1 ∧
    ((PoseV8.forward poseDemo xPoseDemo).2.2.2).shape ≠ poseDemo.shape := by
  refine ⟨rfl, rfl, ?_⟩
  intro hEq
  have h2 : (some 1 : Option ℕ) = none := hEq
  simp at h2

/-- C2 amended: every adapter's forward leaves the adapter's attributes
unchanged, except `PoseV8.forward` (which refreshes the cached
`anchors`/`strides`/`shape` when the cached shape differs from the batch
size, leaving every other attribute unchanged) and
`DetectV6R1.forward`/`DetectV1.forward` (which refresh the cached
per-level `grid` entries that do not match the level's spatial shape,
leaving every other attribute unchanged). -/
theorem claim_C2_amended :
    (∀ (bs nl : ℕ) (ch oc h w : ℕ → ℕ) (A : DetectV5 bs nl ch oc h w) x,
      (DetectV5.forward A x).2.2 = A) ∧
    (∀ (bs nl : ℕ) (ch oc h w : ℕ → ℕ) (A : DetectV7 bs nl ch oc h w) x,
      (DetectV7.forward A x).2.2 = A) ∧
    (∀ (bs nl nc regMax : ℕ) (ud : Bool) (ch h w sc cc rc : ℕ → ℕ)
      (A : DetectV6R3 bs nl nc regMax ud ch h w sc cc rc) x,
      (DetectV6R3.forward A x).2.2 = A) ∧
    (∀ (bs nl nc : ℕ) (ch h w sc cc rc rg : ℕ → ℕ)
      (A : DetectV6R4s bs nl nc ch h w sc cc rc rg) x,
      (DetectV6R4s.forward A x).2.2 = A) ∧
    (∀ (bs nl nc regMax : ℕ) (ud : Bool) (ch h w sc cc rc : ℕ → ℕ)
      (A : DetectV6R4m bs nl nc regMax ud ch h w sc cc rc) x,
      (DetectV6R4m.forward A x).2.2 = A) ∧
    (∀ (bs nl nc regMax : ℕ) (ud : Bool) (ch h w sc cc rc : ℕ → ℕ)
      (A : DetectV2 bs nl nc regMax ud ch h w sc cc rc) x,
      (DetectV2.forward A x).2.2 = A) ∧
    (∀ (bs nl nc regMax : ℕ) (ch h w : ℕ → ℕ)
      (A : DetectV8 bs nl nc regMax ch h w) x,
      (DetectV8.forward A x).2.2 = A) ∧
    (∀ (bs nl nc regMax ne : ℕ) (ch h w : ℕ → ℕ)
      (A : OBBV8 bs nl nc regMax ne ch h w) x,
      (OBBV8.forward A x).2.2.2 = A) ∧
    (∀ (bs nl nc regMax nm pc ph pw : ℕ) (ch h w : ℕ → ℕ)
      (A : SegmentV8 bs nl nc regMax nm pc ph pw ch h w) x,
      (SegmentV8.forward A x).2.2.2.2 = A) ∧
    (∀ (bs nl : ℕ) (ch : ℕ → ℕ) (hh ww c2 h2 w2 c3 h3 w3 nf : ℕ)
      (A : ClassifyV8 bs nl ch hh ww c2 h2 w2 c3 h3 w3 nf) x,
      (ClassifyV8.forward A x).2.2 = A) ∧
    (∀ (bs nl nc regMax nk0 ndim : ℕ) (ch h w : ℕ → ℕ)
      (A : PoseV8 bs nl nc regMax nk0 ndim ch h w) x,
      (PoseV8.forward A x).2.2.2 = A.cacheUpd ∧
      (A.cacheUpd.nc' = A.nc' ∧ A.cacheUpd.nl' = A.nl' ∧
       A.cacheUpd.reg_max = A.reg_max ∧ A.cacheUpd.no = A.no ∧
       A.cacheUpd.stride = A.stride ∧ A.cacheUpd.cv2 = A.cv2 ∧
       A.cacheUpd.cv3 = A.cv3 ∧ A.cacheUpd.dfl = A.dfl ∧
       A.cacheUpd.fAttr = A.fAttr ∧ A.cacheUpd.iAttr = A.iAttr ∧
       A.cacheUpd.kpt_shape = A.kpt_shape ∧ A.cacheUpd.nk = A.nk ∧
       A.cacheUpd.cv4 = A.cv4 ∧ A.cacheUpd.use_rvc2 = A.use_rvc2)) ∧
    (∀ (bs nl na no : ℕ) (ch h w sc cc rc rg og cg : ℕ → ℕ)
      (A : DetectV6R1 bs nl na no ch h w sc cc rc rg og cg) x,
      ((DetectV6R1.forward A x).2.2).grid =
        (fun i => some ((A.grid i).getD
          (fun yy xx => (((xx : ℕ) : ℝ), ((yy : ℕ) : ℝ))))) ∧
      ((DetectV6R1.forward A x).2.2).nc = A.nc ∧
      ((DetectV6R1.forward A x).2.2).anchors = A.anchors ∧
      ((DetectV6R1.forward A x).2.2).prior_prob = A.prior_prob ∧
      ((DetectV6R1.forward A x).2.2).inplace = A.inplace ∧
      ((DetectV6R1.forward A x).2.2).stride = A.stride ∧
      ((DetectV6R1.forward A x).2.2).stems = A.stems ∧
      ((DetectV6R1.forward A x).2.2).cls_convs = A.cls_convs ∧
      ((DetectV6R1.forward A x).2.2).reg_convs = A.reg_convs ∧
      ((DetectV6R1.forward A x).2.2).cls_preds = A.cls_preds ∧
      ((DetectV6R1.forward A x).2.2).reg_preds = A.reg_preds ∧
      ((DetectV6R1.forward A x).2.2).obj_preds = A.obj_preds) ∧
    (∀ (bs nl na no : ℕ) (ch h w sc cc rc rg og cg : ℕ → ℕ)
      (A : DetectV1 bs nl na no ch h w sc cc rc rg og cg) x,
      ((DetectV1.forward A x).2.2).grid =
        (fun i => some ((A.grid i).getD
          (fun yy xx => (((xx : ℕ) : ℝ), ((yy : ℕ) : ℝ))))) ∧
      ((DetectV1.forward A x).2.2).nc = A.nc ∧
      ((DetectV1.forward A x).2.2).anchors = A.anchors ∧
      ((DetectV1.forward A x).2.2).prior_prob = A.prior_prob ∧
      ((DetectV1.forward A x).2.2).inplace = A.inplace ∧
      ((DetectV1.forward A x).2.2).stride = A.stride ∧
      ((DetectV1.forward A x).2.2).stems = A.stems ∧
      ((DetectV1.forward A x).2.2).cls_convs = A.cls_convs ∧
      ((DetectV1.forward A x).2.2).reg_convs = A.reg_convs ∧
      ((DetectV1.forward A x).2.2).cls_preds = A.cls_preds ∧
      ((DetectV1.forward A x).2.2).reg_preds = A.reg_preds ∧
      ((DetectV1.forward A x).2.2).obj_preds = A.obj_preds) := by
  refine ⟨?_, ?_, ?_, ?_, ?_, ?_, ?_, ?_, ?_, ?_, ?_, ?_, ?_⟩ <;> intros
  case _ => rfl
  case _ => rfl
  case _ => rfl
  case _ => rfl
  case _ => rfl
  case _ => rfl
  case _ => rfl
  case _ => rfl
  case _ => rfl
  case _ => rfl
  case _ =>
    refine ⟨rfl, ?_⟩
    unfold PoseV8.cacheUpd
    split <;>
      exact ⟨rfl, rfl, rfl, rfl, rfl, rfl, rfl, rfl, rfl, rfl, rfl, rfl,
        rfl, rfl⟩
  case _ =>
    exact ⟨rfl, rfl, rfl, rfl, rfl, rfl, rfl, rfl, rfl, rfl, rfl, rfl⟩
  case _ =>
    exact ⟨rfl, rfl, rfl, rfl, rfl, rfl, rfl, rfl, rfl, rfl, rfl, rfl⟩

/-- A concrete classification adapter (all layers zero maps, all shapes
1×1). -/
noncomputable def classifyDemo : ClassifyV8 1 1 (fun _ => 1) 1 1 1 1 1 1 1 1 1 :=
  ClassifyV8.init
    { conv := fun _ _ _ _ _ => 0, pool := fun _ _ _ _ _ => 0,
      drop := fun t => t, linear := fun _ _ _ => 0,
      fAttr := [], iAttr := 0 } true

/-- A constant-5 one-level input feature list for `classifyDemo`. -/
noncomputable def xClsDemo : (i : Fin 1) → T4 1 1 1 1 := fun _ _ _ _ _ => 5

/-- C8 counterexample: `ClassifyV8.forward` rebinds its local name
(`x = torch.cat(x, 1)`) and never writes into the caller's list, so after
the call the list still holds the original feature map (value 5 here),
not a convolved intermediate — the claim fails for the `ClassifyV8`
adapter. -/
theorem claim_C8_cex :
    (ClassifyV8.forward classifyDemo xClsDemo).2.1 = xClsDemo ∧
    (ClassifyV8.forward classifyDemo xClsDemo).2.1 0 0 0 0 0 = 5 :=
  ⟨rfl, rfl⟩

/-- C8 amended: every adapter's forward except `ClassifyV8.forward`
overwrites each element of the caller's list in place with the
intermediate per-level tensor — `m[i](x[i])` for V5/V7, `stems[i](x[i])`
for the V6-family heads, `cat((cv2[i](x[i]), cv3[i](x[i])), 1)` for the
V8-family heads; `ClassifyV8.forward` leaves the caller's list untouched. -/
theorem claim_C8_amended :
    (∀ (bs nl : ℕ) (ch oc h w : ℕ → ℕ) (A : DetectV5 bs nl ch oc h w) x,
      (DetectV5.forward A x).2.1 = fun i => A.m i (x i)) ∧
    (∀ (bs nl : ℕ) (ch oc h w : ℕ → ℕ) (A : DetectV7 bs nl ch oc h w) x,
      (DetectV7.forward A x).2.1 = fun i => A.m i (x i)) ∧
    (∀ (bs nl na no : ℕ) (ch h w sc cc rc rg og cg : ℕ → ℕ)
      (A : DetectV6R1 bs nl na no ch h w sc cc rc rg og cg) x,
      (DetectV6R1.forward A x).2.1 = fun i => A.stems i (x i)) ∧
    (∀ (bs nl nc regMax : ℕ) (ud : Bool) (ch h w sc cc rc : ℕ → ℕ)
      (A : DetectV6R3 bs nl nc regMax ud ch h w sc cc rc) x,
      (DetectV6R3.forward A x).2.1 = fun i => A.stems i (x i)) ∧
    (∀ (bs nl nc : ℕ) (ch h w sc cc rc rg : ℕ → ℕ)
      (A : DetectV6R4s bs nl nc ch h w sc cc rc rg) x,
      (DetectV6R4s.forward A x).2.1 = fun i => A.stems i (x i)) ∧
    (∀ (bs nl nc regMax : ℕ) (ud : Bool) (ch h w sc cc rc : ℕ → ℕ)
      (A : DetectV6R4m bs nl nc regMax ud ch h w sc cc rc) x,
      (DetectV6R4m.forward A x).2.1 = fun i => A.stems i (x i)) ∧
    (∀ (bs nl na no : ℕ) (ch h w sc cc rc rg og cg : ℕ → ℕ)
      (A : DetectV1 bs nl na no ch h w sc cc rc rg og cg) x,
      (DetectV1.forward A x).2.1 = fun i => A.stems i (x i)) ∧
    (∀ (bs nl nc regMax : ℕ) (ud : Bool) (ch h w sc cc rc : ℕ → ℕ)
      (A : DetectV2 bs nl nc regMax ud ch h w sc cc rc) x,
      (DetectV2.forward A x).2.1 = fun i => A.stems i (x i)) ∧
    (∀ (bs nl nc regMax : ℕ) (ch h w : ℕ → ℕ)
      (A : DetectV8 bs nl nc regMax ch h w) x,
      (DetectV8.forward A x).2.1 =
        fun i => catC (A.cv2 i (x i)) (A.cv3 i (x i))) ∧
    (∀ (bs nl nc regMax ne : ℕ) (ch h w : ℕ → ℕ)
      (A : OBBV8 bs nl nc regMax ne ch h w) x,
      (OBBV8.forward A x).2.2.1 =
        fun i => catC (A.cv2 i (x i)) (A.cv3 i (x i))) ∧
    (∀ (bs nl nc regMax nk0 ndim : ℕ) (ch h w : ℕ → ℕ)
      (A : PoseV8 bs nl nc regMax nk0 ndim ch h w) x,
      (PoseV8.forward A x).2.2.1 =
        fun i => catC (A.cv2 i (x i)) (A.cv3 i (x i))) ∧
    (∀ (bs nl nc regMax nm pc ph pw : ℕ) (ch h w : ℕ → ℕ)
      (A : SegmentV8 bs nl nc regMax nm pc ph pw ch h w) x,
      (SegmentV8.forward A x).2.2.2.1 =
        fun i => catC (A.cv2 i (x i)) (A.cv3 i (x i))) ∧
    (∀ (bs nl : ℕ) (ch : ℕ → ℕ) (hh ww c2 h2 w2 c3 h3 w3 nf : ℕ)
      (A : ClassifyV8 bs nl ch hh ww c2 h2 w2 c3 h3 w3 nf) x,
      (ClassifyV8.forward A x).2.1 = x) := by
  refine ⟨?_, ?_, ?_, ?_, ?_, ?_, ?_, ?_, ?_, ?_, ?_, ?_, ?_⟩ <;>
    intros <;> rfl

/-- An all-zero one-level input feature list with 1×1 shapes. -/
noncomputable def xDemo : (i : Fin 1) → T4 1 1 1 1 := fun _ _ _ _ _ => 0

/-- A concrete wrapped YOLOv8 Detect head (zero layers, 1×1 shapes). -/
noncomputable def oldV8demo :
    OldDetectV8 1 1 1 1 (fun _ => 1) (fun _ => 1) (fun _ => 1) :=
  { nc' := 1, nl' := 1, reg_max := 1, no := 5, stride := fun _ => 8,
    cv2 := fun _ _ _ _ _ _ => 0, cv3 := fun _ _ _ _ _ _ => 0,
    dfl := fun _ _ _ _ => 0, fAttr := [], iAttr := 0 }

/-- A concrete wrapped YOLOv8 OBB head (zero layers, 1×1 shapes). -/
noncomputable def oldOBBdemo :
    OldOBBV8 1 1 1 1 1 (fun _ => 1) (fun _ => 1) (fun _ => 1) :=
  { nc' := 1, nl' := 1, reg_max := 1, no := 5, stride := fun _ => 8,
    cv2 := fun _ _ _ _ _ _ => 0, cv3 := fun _ _ _ _ _ _ => 0,
    dfl := fun _ _ _ _ => 0, fAttr := [], iAttr := 0,
    ne' := 1, cv4 := fun _ _ _ _ _ _ => 0 }

/-- A concrete wrapped YOLOv8 Segment head (zero layers, 1×1 shapes). -/
noncomputable def oldSegDemo :
    OldSegmentV8 1 1 1 1 1 1 1 1 (fun _ => 1) (fun _ => 1) (fun _ => 1) :=
  { nc' := 1, nl' := 1, reg_max := 1, no := 5, stride := fun _ => 8,
    cv2 := fun _ _ _ _ _ _ => 0, cv3 := fun _ _ _ _ _ _ => 0,
    dfl := fun _ _ _ _ => 0, fAttr := [], iAttr := 0,
    nm' := 1, npr := 1, proto := fun _ _ _ _ _ => 0,
    cv4 := fun _ _ _ _ _ _ => 0, hnl := Nat.one_pos }

/-- A concrete wrapped YOLOv6 R4 nano/small head (zero layers). -/
noncomputable def oldR4sDemo :
    OldDetectV6R4s 1 1 1 (fun _ => 1) (fun _ => 1) (fun _ => 1) (fun _ => 1)
      (fun _ => 1) (fun _ => 1) (fun _ => 4) :=
  { nc' := 1, no := 6, anchors := none, grid := [], inplace := true,
    stride := [8, 16, 32], use_dfl := some false, reg_max := some 0,
    proj_conv := none,
    stems := fun _ _ _ _ _ _ => 0, cls_convs := fun _ _ _ _ _ _ => 0,
    reg_convs := fun _ _ _ _ _ _ => 0, cls_preds := fun _ _ _ _ _ _ => 0,
    reg_preds := fun _ _ _ _ _ _ => 0 }

/-- A concrete wrapped YOLOv6 R4 medium/large head with `use_dfl = True`
and `reg_max = 0` (zero layers). -/
noncomputable def oldR4mDemo :
    OldDetectV6R4m 1 1 1 0 true (fun _ => 1) (fun _ => 1) (fun _ => 1)
      (fun _ => 1) (fun _ => 1) (fun _ => 1) :=
  { nc' := 1, no := 6, anchors := none, grid := [], inplace := true,
    stride := [8, 16, 32], projw := fun _ => 0,
    stems := fun _ _ _ _ _ _ => 0, cls_convs := fun _ _ _ _ _ _ => 0,
    reg_convs := fun _ _ _ _ _ _ => 0, cls_preds := fun _ _ _ _ _ _ => 0,
    reg_preds := fun _ _ _ _ _ _ => 0 }

/-- C9: for every adapter of the seven confidence-emitting classes
constructed with `use_rvc2 = false`, the confidence channel of every
per-level output (channel `reg_max*4`-decoded box width, i.e. the channel
right after the box channels) is identically `1`, independent of the
input features and of the class scores (`torch.ones`). -/
theorem claim_C9 :
    (∀ (bs nl nc regMax : ℕ) (ch h w : ℕ → ℕ)
      (A : DetectV8 bs nl nc regMax ch h w) x, A.use_rvc2 = false →
      ∀ i b yy xx,
        (DetectV8.forward A x).1 i b ⟨4, by omega⟩ yy xx = 1) ∧
    (∀ (bs nl nc regMax ne : ℕ) (ch h w : ℕ → ℕ)
      (A : OBBV8 bs nl nc regMax ne ch h w) x, A.use_rvc2 = false →
      ∀ i b yy xx,
        (OBBV8.forward A x).1 i b ⟨4, by omega⟩ yy xx = 1) ∧
    (∀ (bs nl nc regMax nk0 ndim : ℕ) (ch h w : ℕ → ℕ)
      (A : PoseV8 bs nl nc regMax nk0 ndim ch h w) x, A.use_rvc2 = false →
      ∀ i b yy xx,
        (PoseV8.forward A x).1 i b ⟨4, by omega⟩ yy xx = 1) ∧
    (∀ (bs nl nc regMax nm pc ph pw : ℕ) (ch h w : ℕ → ℕ)
      (A : SegmentV8 bs nl nc regMax nm pc ph pw ch h w) x,
      A.use_rvc2 = false →
      ∀ i b yy xx,
        (SegmentV8.forward A x).2.1 i b ⟨4, by omega⟩ yy xx = 1) ∧
    (∀ (bs nl nc regMax : ℕ) (ud : Bool) (ch h w sc cc rc : ℕ → ℕ)
      (A : DetectV6R3 bs nl nc regMax ud ch h w sc cc rc) x,
      A.use_rvc2 = false →
      ∀ i b yy xx,
        (DetectV6R3.forward A x).1 i b ⟨regOutCh ud regMax, by omega⟩ yy xx
          = 1) ∧
    (∀ (bs nl nc : ℕ) (ch h w sc cc rc rg : ℕ → ℕ)
      (A : DetectV6R4s bs nl nc ch h w sc cc rc rg) x, A.use_rvc2 = false →
      ∀ i b yy xx,
        (DetectV6R4s.forward A x).1 i b ⟨rg i, by omega⟩ yy xx = 1) ∧
    (∀ (bs nl nc regMax : ℕ) (ud : Bool) (ch h w sc cc rc : ℕ → ℕ)
      (A : DetectV6R4m bs nl nc regMax ud ch h w sc cc rc) x,
      A.use_rvc2 = false →
      ∀ i b yy xx,
        (DetectV6R4m.forward A x).1 i b ⟨regOutCh ud regMax, by omega⟩ yy xx
          = 1) := by
  refine ⟨?_, ?_, ?_, ?_, ?_, ?_, ?_⟩
  · intro bs nl nc regMax ch h w A x hr i b yy xx
    simp only [DetectV8.forward]
    rw [yLayout_conf, hr]
    simp
  · intro bs nl nc regMax ne ch h w A x hr i b yy xx
    simp only [OBBV8.forward]
    rw [yLayout_conf, hr]
    simp
  · intro bs nl nc regMax nk0 ndim ch h w A x hr i b yy xx
    simp only [PoseV8.forward]
    rw [yLayout_conf, hr]
    simp
  · intro bs nl nc regMax nm pc ph pw ch h w A x hr i b yy xx
    simp only [SegmentV8.forward]
    rw [yLayout_conf, hr]
    simp
  · intro bs nl nc regMax ud ch h w sc cc rc A x hr i b yy xx
    simp only [DetectV6R3.forward, DetectV6R3.forwardLevel]
    rw [yLayout4_conf, hr]
    simp
  · intro bs nl nc ch h w sc cc rc rg A x hr i b yy xx
    simp only [DetectV6R4s.forward, DetectV6R4s.forwardLevel]
    rw [yLayout4_conf, hr]
    simp
  · intro bs nl nc regMax ud ch h w sc cc rc A x hr i b yy xx
    simp only [DetectV6R4m.forward, DetectV6R4m.forwardLevel]
    rw [yLayout4_conf, hr]
    simp

/-- C9 witness: concrete adapters of all seven classes built with
`use_rvc2 = false` have confidence output `1` at every position of the
1×1 demo input. -/
theorem claim_C9_witness :
    ((DetectV8.init oldV8demo false).use_rvc2 = false ∧
      (DetectV8.forward (DetectV8.init oldV8demo false) xDemo).1 0 0
        ⟨4, by omega⟩ 0 0 = 1) ∧
    ((OBBV8.init oldOBBdemo false).use_rvc2 = false ∧
      (OBBV8.forward (OBBV8.init oldOBBdemo false) xDemo).1 0 0
        ⟨4, by omega⟩ 0 0 = 1) ∧
    ((PoseV8.init oldPoseDemo false).use_rvc2 = false ∧
      (PoseV8.forward (PoseV8.init oldPoseDemo false) xDemo).1 0 0
        ⟨4, by omega⟩ 0 0 = 1) ∧
    ((SegmentV8.init oldSegDemo false).use_rvc2 = false ∧
      (SegmentV8.forward (SegmentV8.init oldSegDemo false) xDemo).2.1 0 0
        ⟨4, by omega⟩ 0 0 = 1) ∧
    ((DetectV6R3.init oldR3demo false).use_rvc2 = false ∧
      (DetectV6R3.forward (DetectV6R3.init oldR3demo false) xDemo).1 0 0
        ⟨regOutCh true 0, by omega⟩ 0 0 = 1) ∧
    ((DetectV6R4s.init oldR4sDemo false).use_rvc2 = false ∧
      (DetectV6R4s.forward (DetectV6R4s.init oldR4sDemo false) xDemo).1 0 0
        ⟨4, by omega⟩ 0 0 = 1) ∧
    ((DetectV6R4m.init oldR4mDemo false).use_rvc2 = false ∧
      (DetectV6R4m.forward (DetectV6R4m.init oldR4mDemo false) xDemo).1 0 0
        ⟨regOutCh true 0, by omega⟩ 0 0 = 1) :=
  ⟨⟨rfl, claim_C9.1 _ _ _ _ _ _ _ (DetectV8.init oldV8demo false) xDemo rfl
      0 0 0 0⟩,
   ⟨rfl, claim_C9.2.1 _ _ _ _ _ _ _ _ (OBBV8.init oldOBBdemo false) xDemo rfl
      0 0 0 0⟩,
   ⟨rfl, claim_C9.2.2.1 _ _ _ _ _ _ _ _ _ (PoseV8.init oldPoseDemo false)
      xDemo rfl 0 0 0 0⟩,
   ⟨rfl, claim_C9.2.2.2.1 _ _ _ _ _ _ _ _ _ _ _
      (SegmentV8.init oldSegDemo false) xDemo rfl 0 0 0 0⟩,
   ⟨rfl, claim_C9.2.2.2.2.1 _ _ _ _ _ _ _ _ _ _ _
      (DetectV6R3.init oldR3demo false) xDemo rfl 0 0 0 0⟩,
   ⟨rfl, claim_C9.2.2.2.2.2.1 _ _ _ _ _ _ _ _ _ _
      (DetectV6R4s.init oldR4sDemo false) xDemo rfl 0 0 0 0⟩,
   ⟨rfl, claim_C9.2.2.2.2.2.2 _ _ _ _ _ _ _ _ _ _ _
      (DetectV6R4m.init oldR4mDemo false) xDemo rfl 0 0 0 0⟩⟩

/-- C7: `OBBV8.forward` emits, after the per-level detection outputs, the
angle tensor `(sigmoid(theta_logit) - 0.25) * π`, and every decoded angle
lies strictly between `-π/4` and `3π/4`. -/
theorem claim_C7 {bs nl nc regMax ne : ℕ} {ch h w : ℕ → ℕ}
    (A : OBBV8 bs nl nc regMax ne ch h w)
    (x : (i : Fin nl) → T4 bs (ch i) (h i) (w i)) :
    (OBBV8.forward A x).2.1 =
      (fun b e g => (sigmoid (A.angleRaw x b e g) - 0.25) * Real.pi) ∧
    ∀ b e g, -(Real.pi / 4) < (OBBV8.forward A x).2.1 b e g ∧
      (OBBV8.forward A x).2.1 b e g < 3 * Real.pi / 4 := by
  refine ⟨rfl, fun b e g => ?_⟩
  have h1 := sigmoid_pos (A.angleRaw x b e g)
  have h2 := sigmoid_lt_one (A.angleRaw x b e g)
  have hπ := Real.pi_pos
  constructor
  · show -(Real.pi / 4) <
      (sigmoid (A.angleRaw x b e g) - 0.25) * Real.pi
    nlinarith
  · show (sigmoid (A.angleRaw x b e g) - 0.25) * Real.pi <
      3 * Real.pi / 4
    nlinarith

/-- The `DetectV2` adapter carrying the layers and hyperparameters of a
given `DetectV6R3` adapter. -/
noncomputable def v2OfR3 {bs nl nc regMax : ℕ} {ud : Bool}
    {ch h w sc cc rc : ℕ → ℕ}
    (A : DetectV6R3 bs nl nc regMax ud ch h w sc cc rc) :
    DetectV2 bs nl nc regMax ud ch h w sc cc rc :=
  { nc' := A.nc', no := A.no, anchors := A.anchors, grid := A.grid,
    prior_prob := A.prior_prob, inplace := A.inplace, stride := A.stride,
    projw := A.projw, grid_cell_offset := A.grid_cell_offset,
    grid_cell_size := A.grid_cell_size, stems := A.stems,
    cls_convs := A.cls_convs, reg_convs := A.reg_convs,
    cls_preds := A.cls_preds, reg_preds := A.reg_preds }

/-- The `DetectV6R4m` adapter carrying the layers and hyperparameters of a
given `DetectV6R3` adapter. -/
noncomputable def r4mOfR3 {bs nl nc regMax : ℕ} {ud : Bool}
    {ch h w sc cc rc : ℕ → ℕ}
    (A : DetectV6R3 bs nl nc regMax ud ch h w sc cc rc) :
    DetectV6R4m bs nl nc regMax ud ch h w sc cc rc :=
  { nc' := A.nc', no := A.no, anchors := A.anchors, grid := A.grid,
    prior_prob := A.prior_prob, inplace := A.inplace, stride := A.stride,
    projw := A.projw, grid_cell_offset := A.grid_cell_offset,
    grid_cell_size := A.grid_cell_size, stems := A.stems,
    cls_convs := A.cls_convs, reg_convs := A.reg_convs,
    cls_preds := A.cls_preds, reg_preds := A.reg_preds,
    use_rvc2 := A.use_rvc2 }

/-- C3: with `use_dfl` set, the DFL decode of `DetectV6R3` reshapes the
`4·(reg_max+1)`-channel regression map into 4 coordinates of `reg_max + 1`
bin logits per cell (`(q, rb) ↦` channel `q·(reg_max+1) + rb`), softmaxes
over the bin axis so each coordinate's bins form a probability
distribution (positive, summing to 1), and maps each distribution to a
single value through the projection-convolution weights; `DetectV2` and
`DetectV6R4m` (with the same copied layers) perform the same decoding, and
the forward's regression output channels carry exactly this decode. -/
theorem claim_C3 :
    (∀ (bs nl nc regMax : ℕ) (ch h w sc cc rc : ℕ → ℕ)
      (A : DetectV6R3 bs nl nc regMax true ch h w sc cc rc)
      (xi : (i : Fin nl) → T4 bs (sc i) (h i) (w i)) (i : Fin nl)
      (b : Fin bs) (q : Fin 4) (yy : Fin (h i)) (xx : Fin (w i)),
      A.regDec xi i b q yy xx =
        ∑ rb, A.projw rb *
          softmax (fun rb' =>
            A.reg_preds i (A.reg_convs i (xi i)) b (fpair q rb') yy xx) rb) ∧
    (∀ (bs nl nc regMax : ℕ) (ch h w sc cc rc : ℕ → ℕ)
      (A : DetectV6R3 bs nl nc regMax true ch h w sc cc rc)
      (xi : (i : Fin nl) → T4 bs (sc i) (h i) (w i)) (i : Fin nl)
      (b : Fin bs) (q : Fin 4) (yy : Fin (h i)) (xx : Fin (w i)),
      (∑ rb, softmax (fun rb' =>
          A.reg_preds i (A.reg_convs i (xi i)) b (fpair q rb') yy xx) rb
        = 1) ∧
      ∀ rb, 0 < softmax (fun rb' =>
          A.reg_preds i (A.reg_convs i (xi i)) b (fpair q rb') yy xx) rb) ∧
    (∀ (bs nl nc regMax : ℕ) (ud : Bool) (ch h w sc cc rc : ℕ → ℕ)
      (A : DetectV6R3 bs nl nc regMax ud ch h w sc cc rc)
      (xi : (i : Fin nl) → T4 bs (sc i) (h i) (w i)) (i : Fin nl),
      DetectV2.regDec (v2OfR3 A) xi i = A.regDec xi i) ∧
    (∀ (bs nl nc regMax : ℕ) (ud : Bool) (ch h w sc cc rc : ℕ → ℕ)
      (A : DetectV6R3 bs nl nc regMax ud ch h w sc cc rc)
      (xi : (i : Fin nl) → T4 bs (sc i) (h i) (w i)) (i : Fin nl),
      DetectV6R4m.regDec (r4mOfR3 A) xi i = A.regDec xi i) ∧
    (∀ (bs nl nc regMax : ℕ) (ud : Bool) (ch h w sc cc rc : ℕ → ℕ)
      (A : DetectV6R3 bs nl nc regMax ud ch h w sc cc rc)
      (x : (i : Fin nl) → T4 bs (ch i) (h i) (w i)) (i : Fin nl)
      (b : Fin bs) (c : Fin (regOutCh ud regMax)) (yy : Fin (h i))
      (xx : Fin (w i)),
      (DetectV6R3.forward A x).1 i b ⟨c, by have := c.isLt; omega⟩ yy xx =
        A.regDec (fun j => A.stems j (x j)) i b c yy xx) := by
  refine ⟨?_, ?_, ?_, ?_, ?_⟩
  · intro bs nl nc regMax ch h w sc cc rc A xi i b q yy xx
    simp only [DetectV6R3.regDec, funpair_fpair]
  · intro bs nl nc regMax ch h w sc cc rc A xi i b q yy xx
    exact ⟨softmax_sum_one (Nat.succ_pos _) _,
      fun rb => softmax_pos (Nat.succ_pos _) _ rb⟩
  · intro bs nl nc regMax ud ch h w sc cc rc A xi i
    cases ud <;> rfl
  · intro bs nl nc regMax ud ch h w sc cc rc A xi i
    cases ud <;> rfl
  · intro bs nl nc regMax ud ch h w sc cc rc A x i b c yy xx
    simp only [DetectV6R3.forward, DetectV6R3.forwardLevel]
    rw [yLayout4_box]

/-- The x/y branch of `PoseV8.kpts_decode` at keypoint `k`, coordinate
`d < 2` (channel `k·ndim + d` of the `(bs, nk, ·)` layout). -/
theorem kpts_decode_coord {bs nl nc regMax nk0 ndim : ℕ} {ch h w : ℕ → ℕ}
    (A : PoseV8 bs nl nc regMax nk0 ndim ch h w)
    (kpts : T3 bs (nk0 * ndim) (totA nl fun k => h k * w k))
    (b : Fin bs) (k : Fin nk0) (d : Fin ndim)
    (p : Fin (totA nl fun k => h k * w k)) (hd : (d : ℕ) < 2) :
    A.kpts_decode kpts b (fpair k d) p =
      (kpts b (fpair k d) p * 2.0 + (A.anchors ⟨(d : ℕ), hd⟩ p - 0.5)) *
        A.strides p := by
  have hm : ((fpair k d : Fin (nk0 * ndim)) : ℕ) % ndim = (d : ℕ) :=
    fpair_mod k d
  unfold PoseV8.kpts_decode
  rw [dif_pos
    (show ((fpair k d : Fin (nk0 * ndim)) : ℕ) % ndim < 2 from hm ▸ hd)]
  have hidx : ∀ (h1 : ((fpair k d : Fin (nk0 * ndim)) : ℕ) % ndim < 2),
      (⟨((fpair k d : Fin (nk0 * ndim)) : ℕ) % ndim, h1⟩ : Fin 2) =
        ⟨(d : ℕ), hd⟩ :=
    fun _ => Fin.ext hm
  rw [hidx]

/-- The visibility branch of `PoseV8.kpts_decode`: the third coordinate is
passed through a sigmoid exactly when `kpt_shape[1] = 3`. -/
theorem kpts_decode_vis {bs nl nc regMax nk0 ndim : ℕ} {ch h w : ℕ → ℕ}
    (A : PoseV8 bs nl nc regMax nk0 ndim ch h w)
    (kpts : T3 bs (nk0 * ndim) (totA nl fun k => h k * w k))
    (b : Fin bs) (k : Fin nk0) (d : Fin ndim)
    (p : Fin (totA nl fun k => h k * w k)) (hd : (d : ℕ) = 2)
    (h3 : ndim = 3) :
    A.kpts_decode kpts b (fpair k d) p = sigmoid (kpts b (fpair k d) p) := by
  have hm : ((fpair k d : Fin (nk0 * ndim)) : ℕ) % ndim = (d : ℕ) :=
    fpair_mod k d
  unfold PoseV8.kpts_decode
  rw [dif_neg (show ¬ ((fpair k d : Fin (nk0 * ndim)) : ℕ) % ndim < 2 by
      rw [hm, hd]; omega),
    if_pos h3]

/-- C6: `PoseV8.forward` appends as its last output the keypoint tensor
decoded by `kpts_decode` against the refreshed cached anchors/strides;
`kpts_decode` views the raw keypoints as
`(bs, kpt_shape[0], kpt_shape[1], anchors)` (channel `k·ndim + d`), maps
each x/y coordinate (`d < 2`) to
`(raw * 2.0 + (anchor_d - 0.5)) * stride`, applies a sigmoid to the third
coordinate exactly when `kpt_shape[1] = 3`, and returns the
`(bs, nk, anchors)` flattening. -/
theorem claim_C6 {bs nl nc regMax nk0 ndim : ℕ} {ch h w : ℕ → ℕ}
    (A : PoseV8 bs nl nc regMax nk0 ndim ch h w)
    (x : (i : Fin nl) → T4 bs (ch i) (h i) (w i)) :
    (PoseV8.forward A x).2.1 = A.cacheUpd.kpts_decode (A.kptRaw x) ∧
    (∀ (kpts : T3 bs (nk0 * ndim) (totA nl fun k => h k * w k))
      (b : Fin bs) (k : Fin nk0) (d : Fin ndim)
      (p : Fin (totA nl fun k => h k * w k)) (hd : (d : ℕ) < 2),
      A.cacheUpd.kpts_decode kpts b (fpair k d) p =
        (kpts b (fpair k d) p * 2.0 +
          (A.cacheUpd.anchors ⟨(d : ℕ), hd⟩ p - 0.5)) *
          A.cacheUpd.strides p) ∧
    (∀ (kpts : T3 bs (nk0 * ndim) (totA nl fun k => h k * w k))
      (b : Fin bs) (k : Fin nk0) (d : Fin ndim)
      (p : Fin (totA nl fun k => h k * w k)),
      (d : ℕ) = 2 → ndim = 3 →
      A.cacheUpd.kpts_decode kpts b (fpair k d) p =
        sigmoid (kpts b (fpair k d) p)) :=
  ⟨rfl,
   fun kpts b k d p hd => kpts_decode_coord A.cacheUpd kpts b k d p hd,
   fun kpts b k d p hd h3 => kpts_decode_vis A.cacheUpd kpts b k d p hd h3⟩

/-- A concrete wrapped Pose head with `kpt_shape = (1, 3)` (three
coordinates per keypoint). -/
noncomputable def oldPose3Demo :
    OldPoseV8 1 1 1 1 1 3 (fun _ => 1) (fun _ => 1) (fun _ => 1) :=
  { nc' := 1, nl' := 1, reg_max := 1, no := 5, stride := fun _ => 8,
    cv2 := fun _ _ _ _ _ _ => 0, cv3 := fun _ _ _ _ _ _ => 0,
    dfl := fun _ _ _ _ => 0, fAttr := [], iAttr := 0,
    kpt_shape := (1, 3), nk := 3, cv4 := fun _ _ _ _ _ _ => 0 }

/-- The single global anchor position of the 1-level 1×1 demo inputs. -/
def gDemo : Fin (totA 1 fun _ => 1 * 1) := ⟨0, by decide⟩

/-- C6 witness: both decode branches at concrete adapters — the x
coordinate of the `(1, 2)`-shaped demo keypoint head, and the sigmoid
visibility channel of the `(1, 3)`-shaped one. -/
theorem claim_C6_witness :
    ((((0 : Fin 2)) : ℕ) < 2 ∧
      (PoseV8.init oldPoseDemo true).cacheUpd.kpts_decode
          (fun _ _ _ => 0) 0 (fpair 0 (0 : Fin 2)) gDemo =
        ((fun (_ : Fin 1) (_ : Fin (1 * 2))
            (_ : Fin (totA 1 fun _ => 1 * 1)) => (0 : ℝ)) 0
            (fpair 0 (0 : Fin 2)) gDemo * 2.0 +
          ((PoseV8.init oldPoseDemo true).cacheUpd.anchors
            ⟨((0 : Fin 2) : ℕ), by norm_num⟩ gDemo - 0.5)) *
          (PoseV8.init oldPoseDemo true).cacheUpd.strides gDemo) ∧
    (((2 : Fin 3) : ℕ) = 2 ∧ (3 : ℕ) = 3 ∧
      (PoseV8.init oldPose3Demo true).cacheUpd.kpts_decode
          (fun _ _ _ => 0) 0 (fpair 0 (2 : Fin 3)) gDemo =
        sigmoid ((fun (_ : Fin 1) (_ : Fin (1 * 3))
          (_ : Fin (totA 1 fun _ => 1 * 1)) => (0 : ℝ)) 0
          (fpair 0 (2 : Fin 3)) gDemo)) :=
  ⟨⟨by decide,
    (claim_C6 (PoseV8.init oldPoseDemo true) xDemo).2.1
      (fun _ _ _ => 0) 0 0 (0 : Fin 2) gDemo (by decide)⟩,
   ⟨by decide, rfl,
    (claim_C6 (PoseV8.init oldPose3Demo true) xDemo).2.2
      (fun _ _ _ => 0) 0 0 (2 : Fin 3) gDemo (by decide) rfl⟩⟩

/-- C1: for every adapter of the seven confidence-emitting classes built
with `use_rvc2 = true` and every well-shaped input list, each per-level
output concatenates in channel order the bounding-box regression
channels, one confidence channel equal to the per-position maximum of the
sigmoid class scores (it dominates every score and is attained by one),
and the `nc` per-class sigmoid scores. -/
theorem claim_C1 :
    (∀ (bs nl nc regMax : ℕ) (ch h w : ℕ → ℕ)
      (A : DetectV8 bs nl nc regMax ch h w) x, A.use_rvc2 = true → 0 < nc →
      ∀ (i : Fin nl) (b : Fin bs) (yy : Fin (h i)) (xx : Fin (w i)),
      (∀ c : Fin 4,
        (DetectV8.forward A x).1 i b ⟨c, by have := c.isLt; omega⟩ yy xx =
          A.dfl (A.boxRaw x) b c (gidx (fun k => h k * w k) i (fpair yy xx))) ∧
      (∀ j : Fin nc,
        sigmoid (A.clsRaw x b j (gidx (fun k => h k * w k) i (fpair yy xx))) ≤
          (DetectV8.forward A x).1 i b ⟨4, by omega⟩ yy xx) ∧
      (∃ j : Fin nc,
        (DetectV8.forward A x).1 i b ⟨4, by omega⟩ yy xx =
          sigmoid (A.clsRaw x b j (gidx (fun k => h k * w k) i (fpair yy xx)))) ∧
      (∀ j : Fin nc,
        (DetectV8.forward A x).1 i b ⟨4 + 1 + j, by have := j.isLt; omega⟩ yy xx =
          sigmoid (A.clsRaw x b j (gidx (fun k => h k * w k) i (fpair yy xx))))) ∧
    (∀ (bs nl nc regMax ne : ℕ) (ch h w : ℕ → ℕ)
      (A : OBBV8 bs nl nc regMax ne ch h w) x, A.use_rvc2 = true → 0 < nc →
      ∀ (i : Fin nl) (b : Fin bs) (yy : Fin (h i)) (xx : Fin (w i)),
      (∀ c : Fin 4,
        (OBBV8.forward A x).1 i b ⟨c, by have := c.isLt; omega⟩ yy xx =
          A.dfl (A.boxRaw x) b c (gidx (fun k => h k * w k) i (fpair yy xx))) ∧
      (∀ j : Fin nc,
        sigmoid (A.clsRaw x b j (gidx (fun k => h k * w k) i (fpair yy xx))) ≤
          (OBBV8.forward A x).1 i b ⟨4, by omega⟩ yy xx) ∧
      (∃ j : Fin nc,
        (OBBV8.forward A x).1 i b ⟨4, by omega⟩ yy xx =
          sigmoid (A.clsRaw x b j (gidx (fun k => h k * w k) i (fpair yy xx)))) ∧
      (∀ j : Fin nc,
        (OBBV8.forward A x).1 i b ⟨4 + 1 + j, by have := j.isLt; omega⟩ yy xx =
          sigmoid (A.clsRaw x b j (gidx (fun k => h k * w k) i (fpair yy xx))))) ∧
    (∀ (bs nl nc regMax nk0 ndim : ℕ) (ch h w : ℕ → ℕ)
      (A : PoseV8 bs nl nc regMax nk0 ndim ch h w) x, A.use_rvc2 = true →
      0 < nc →
      ∀ (i : Fin nl) (b : Fin bs) (yy : Fin (h i)) (xx : Fin (w i)),
      (∀ c : Fin 4,
        (PoseV8.forward A x).1 i b ⟨c, by have := c.isLt; omega⟩ yy xx =
          A.dfl (A.boxRaw x) b c (gidx (fun k => h k * w k) i (fpair yy xx))) ∧
      (∀ j : Fin nc,
        sigmoid (A.clsRaw x b j (gidx (fun k => h k * w k) i (fpair yy xx))) ≤
          (PoseV8.forward A x).1 i b ⟨4, by omega⟩ yy xx) ∧
      (∃ j : Fin nc,
        (PoseV8.forward A x).1 i b ⟨4, by omega⟩ yy xx =
          sigmoid (A.clsRaw x b j (gidx (fun k => h k * w k) i (fpair yy xx)))) ∧
      (∀ j : Fin nc,
        (PoseV8.forward A x).1 i b ⟨4 + 1 + j, by have := j.isLt; omega⟩ yy xx =
          sigmoid (A.clsRaw x b j (gidx (fun k => h k * w k) i (fpair yy xx))))) ∧
    (∀ (bs nl nc regMax nm pc ph pw : ℕ) (ch h w : ℕ → ℕ)
      (A : SegmentV8 bs nl nc regMax nm pc ph pw ch h w) x,
      A.use_rvc2 = true → 0 < nc →
      ∀ (i : Fin nl) (b : Fin bs) (yy : Fin (h i)) (xx : Fin (w i)),
      (∀ c : Fin 4,
        (SegmentV8.forward A x).2.1 i b ⟨c, by have := c.isLt; omega⟩ yy xx =
          A.dfl (A.boxRaw x) b c (gidx (fun k => h k * w k) i (fpair yy xx))) ∧
      (∀ j : Fin nc,
        sigmoid (A.clsRaw x b j (gidx (fun k => h k * w k) i (fpair yy xx))) ≤
          (SegmentV8.forward A x).2.1 i b ⟨4, by omega⟩ yy xx) ∧
      (∃ j : Fin nc,
        (SegmentV8.forward A x).2.1 i b ⟨4, by omega⟩ yy xx =
          sigmoid (A.clsRaw x b j (gidx (fun k => h k * w k) i (fpair yy xx)))) ∧
      (∀ j : Fin nc,
        (SegmentV8.forward A x).2.1 i b ⟨4 + 1 + j, by have := j.isLt; omega⟩ yy xx =
          sigmoid (A.clsRaw x b j (gidx (fun k => h k * w k) i (fpair yy xx))))) ∧
    (∀ (bs nl nc regMax : ℕ) (ud : Bool) (ch h w sc cc rc : ℕ → ℕ)
      (A : DetectV6R3 bs nl nc regMax ud ch h w sc cc rc) x,
      A.use_rvc2 = true → 0 < nc →
      ∀ (i : Fin nl) (b : Fin bs) (yy : Fin (h i)) (xx : Fin (w i)),
      (∀ c : Fin (regOutCh ud regMax),
        (DetectV6R3.forward A x).1 i b ⟨c, by have := c.isLt; omega⟩ yy xx =
          A.regDec (fun j => A.stems j (x j)) i b c yy xx) ∧
      (∀ j : Fin nc,
        sigmoid (A.cls_preds i (A.cls_convs i (A.stems i (x i))) b j yy xx) ≤
          (DetectV6R3.forward A x).1 i b ⟨regOutCh ud regMax, by omega⟩ yy xx) ∧
      (∃ j : Fin nc,
        (DetectV6R3.forward A x).1 i b ⟨regOutCh ud regMax, by omega⟩ yy xx =
          sigmoid (A.cls_preds i (A.cls_convs i (A.stems i (x i))) b j yy xx)) ∧
      (∀ j : Fin nc,
        (DetectV6R3.forward A x).1 i b
            ⟨regOutCh ud regMax + 1 + j, by have := j.isLt; omega⟩ yy xx =
          sigmoid (A.cls_preds i (A.cls_convs i (A.stems i (x i))) b j yy xx))) ∧
    (∀ (bs nl nc : ℕ) (ch h w sc cc rc rg : ℕ → ℕ)
      (A : DetectV6R4s bs nl nc ch h w sc cc rc rg) x,
      A.use_rvc2 = true → 0 < nc →
      ∀ (i : Fin nl) (b : Fin bs) (yy : Fin (h i)) (xx : Fin (w i)),
      (∀ c : Fin (rg i),
        (DetectV6R4s.forward A x).1 i b ⟨c, by have := c.isLt; omega⟩ yy xx =
          A.reg_preds i (A.reg_convs i (A.stems i (x i))) b c yy xx) ∧
      (∀ j : Fin nc,
        sigmoid (A.cls_preds i (A.cls_convs i (A.stems i (x i))) b j yy xx) ≤
          (DetectV6R4s.forward A x).1 i b ⟨rg i, by omega⟩ yy xx) ∧
      (∃ j : Fin nc,
        (DetectV6R4s.forward A x).1 i b ⟨rg i, by omega⟩ yy xx =
          sigmoid (A.cls_preds i (A.cls_convs i (A.stems i (x i))) b j yy xx)) ∧
      (∀ j : Fin nc,
        (DetectV6R4s.forward A x).1 i b
            ⟨rg i + 1 + j, by have := j.isLt; omega⟩ yy xx =
          sigmoid (A.cls_preds i (A.cls_convs i (A.stems i (x i))) b j yy xx))) ∧
    (∀ (bs nl nc regMax : ℕ) (ud : Bool) (ch h w sc cc rc : ℕ → ℕ)
      (A : DetectV6R4m bs nl nc regMax ud ch h w sc cc rc) x,
      A.use_rvc2 = true → 0 < nc →
      ∀ (i : Fin nl) (b : Fin bs) (yy : Fin (h i)) (xx : Fin (w i)),
      (∀ c : Fin (regOutCh ud regMax),
        (DetectV6R4m.forward A x).1 i b ⟨c, by have := c.isLt; omega⟩ yy xx =
          A.regDec (fun j => A.stems j (x j)) i b c yy xx) ∧
      (∀ j : Fin nc,
        sigmoid (A.cls_preds i (A.cls_convs i (A.stems i (x i))) b j yy xx) ≤
          (DetectV6R4m.forward A x).1 i b ⟨regOutCh ud regMax, by omega⟩ yy xx) ∧
      (∃ j : Fin nc,
        (DetectV6R4m.forward A x).1 i b ⟨regOutCh ud regMax, by omega⟩ yy xx =
          sigmoid (A.cls_preds i (A.cls_convs i (A.stems i (x i))) b j yy xx)) ∧
      (∀ j : Fin nc,
        (DetectV6R4m.forward A x).1 i b
            ⟨regOutCh ud regMax + 1 + j, by have := j.isLt; omega⟩ yy xx =
          sigmoid (A.cls_preds i (A.cls_convs i (A.stems i (x i))) b j yy xx))) := by
  refine ⟨?_, ?_, ?_, ?_, ?_, ?_, ?_⟩
  · intro bs nl nc regMax ch h w A x hr hnc i b yy xx
    refine ⟨?_, ?_, ?_, ?_⟩
    · intro c
      simp only [DetectV8.forward]
      rw [yLayout_box]
    · intro j
      simp only [DetectV8.forward]
      rw [yLayout_conf, hr]
      simp only [if_true]
      exact maxOver_ge hnc (fun j' =>
        sigmoid (A.clsRaw x b j' (gidx (fun k => h k * w k) i (fpair yy xx)))) j
    · obtain ⟨j, hj⟩ := maxOver_eq_some hnc (fun j' =>
        sigmoid (A.clsRaw x b j' (gidx (fun k => h k * w k) i (fpair yy xx))))
      refine ⟨j, ?_⟩
      simp only [DetectV8.forward]
      rw [yLayout_conf, hr]
      simpa using hj
    · intro j
      simp only [DetectV8.forward]
      rw [yLayout_cls]
  · intro bs nl nc regMax ne ch h w A x hr hnc i b yy xx
    refine ⟨?_, ?_, ?_, ?_⟩
    · intro c
      simp only [OBBV8.forward]
      rw [yLayout_box]
    · intro j
      simp only [OBBV8.forward]
      rw [yLayout_conf, hr]
      simp only [if_true]
      exact maxOver_ge hnc (fun j' =>
        sigmoid (A.clsRaw x b j' (gidx (fun k => h k * w k) i (fpair yy xx)))) j
    · obtain ⟨j, hj⟩ := maxOver_eq_some hnc (fun j' =>
        sigmoid (A.clsRaw x b j' (gidx (fun k => h k * w k) i (fpair yy xx))))
      refine ⟨j, ?_⟩
      simp only [OBBV8.forward]
      rw [yLayout_conf, hr]
      simpa using hj
    · intro j
      simp only [OBBV8.forward]
      rw [yLayout_cls]
  · intro bs nl nc regMax nk0 ndim ch h w A x hr hnc i b yy xx
    refine ⟨?_, ?_, ?_, ?_⟩
    · intro c
      simp only [PoseV8.forward]
      rw [yLayout_box]
    · intro j
      simp only [PoseV8.forward]
      rw [yLayout_conf, hr]
      simp only [if_true]
      exact maxOver_ge hnc (fun j' =>
        sigmoid (A.clsRaw x b j' (gidx (fun k => h k * w k) i (fpair yy xx)))) j
    · obtain ⟨j, hj⟩ := maxOver_eq_some hnc (fun j' =>
        sigmoid (A.clsRaw x b j' (gidx (fun k => h k * w k) i (fpair yy xx))))
      refine ⟨j, ?_⟩
      simp only [PoseV8.forward]
      rw [yLayout_conf, hr]
      simpa using hj
    · intro j
      simp only [PoseV8.forward]
      rw [yLayout_cls]
  · intro bs nl nc regMax nm pc ph pw ch h w A x hr hnc i b yy xx
    refine ⟨?_, ?_, ?_, ?_⟩
    · intro c
      simp only [SegmentV8.forward]
      rw [yLayout_box]
    · intro j
      simp only [SegmentV8.forward]
      rw [yLayout_conf, hr]
      simp only [if_true]
      exact maxOver_ge hnc (fun j' =>
        sigmoid (A.clsRaw x b j' (gidx (fun k => h k * w k) i (fpair yy xx)))) j
    · obtain ⟨j, hj⟩ := maxOver_eq_some hnc (fun j' =>
        sigmoid (A.clsRaw x b j' (gidx (fun k => h k * w k) i (fpair yy xx))))
      refine ⟨j, ?_⟩
      simp only [SegmentV8.forward]
      rw [yLayout_conf, hr]
      simpa using hj
    · intro j
      simp only [SegmentV8.forward]
      rw [yLayout_cls]
  · intro bs nl nc regMax ud ch h w sc cc rc A x hr hnc i b yy xx
    refine ⟨?_, ?_, ?_, ?_⟩
    · intro c
      simp only [DetectV6R3.forward, DetectV6R3.forwardLevel]
      rw [yLayout4_box]
    · intro j
      simp only [DetectV6R3.forward, DetectV6R3.forwardLevel]
      rw [yLayout4_conf, hr]
      simp only [if_true]
      exact maxOver_ge hnc (fun j' =>
        sigmoid (A.cls_preds i (A.cls_convs i (A.stems i (x i))) b j' yy xx)) j
    · obtain ⟨j, hj⟩ := maxOver_eq_some hnc (fun j' =>
        sigmoid (A.cls_preds i (A.cls_convs i (A.stems i (x i))) b j' yy xx))
      refine ⟨j, ?_⟩
      simp only [DetectV6R3.forward, DetectV6R3.forwardLevel]
      rw [yLayout4_conf, hr]
      simpa using hj
    · intro j
      simp only [DetectV6R3.forward, DetectV6R3.forwardLevel]
      rw [yLayout4_cls]
  · intro bs nl nc ch h w sc cc rc rg A x hr hnc i b yy xx
    refine ⟨?_, ?_, ?_, ?_⟩
    · intro c
      simp only [DetectV6R4s.forward, DetectV6R4s.forwardLevel]
      rw [yLayout4_box]
    · intro j
      simp only [DetectV6R4s.forward, DetectV6R4s.forwardLevel]
      rw [yLayout4_conf, hr]
      simp only [if_true]
      exact maxOver_ge hnc (fun j' =>
        sigmoid (A.cls_preds i (A.cls_convs i (A.stems i (x i))) b j' yy xx)) j
    · obtain ⟨j, hj⟩ := maxOver_eq_some hnc (fun j' =>
        sigmoid (A.cls_preds i (A.cls_convs i (A.stems i (x i))) b j' yy xx))
      refine ⟨j, ?_⟩
      simp only [DetectV6R4s.forward, DetectV6R4s.forwardLevel]
      rw [yLayout4_conf, hr]
      simpa using hj
    · intro j
      simp only [DetectV6R4s.forward, DetectV6R4s.forwardLevel]
      rw [yLayout4_cls]
  · intro bs nl nc regMax ud ch h w sc cc rc A x hr hnc i b yy xx
    refine ⟨?_, ?_, ?_, ?_⟩
    · intro c
      simp only [DetectV6R4m.forward, DetectV6R4m.forwardLevel]
      rw [yLayout4_box]
    · intro j
      simp only [DetectV6R4m.forward, DetectV6R4m.forwardLevel]
      rw [yLayout4_conf, hr]
      simp only [if_true]
      exact maxOver_ge hnc (fun j' =>
        sigmoid (A.cls_preds i (A.cls_convs i (A.stems i (x i))) b j' yy xx)) j
    · obtain ⟨j, hj⟩ := maxOver_eq_some hnc (fun j' =>
        sigmoid (A.cls_preds i (A.cls_convs i (A.stems i (x i))) b j' yy xx))
      refine ⟨j, ?_⟩
      simp only [DetectV6R4m.forward, DetectV6R4m.forwardLevel]
      rw [yLayout4_conf, hr]
      simpa using hj
    · intro j
      simp only [DetectV6R4m.forward, DetectV6R4m.forwardLevel]
      rw [yLayout4_cls]

/-- C1 witness: at concrete `use_rvc2 = true` adapters of all seven
classes (1×1 demo shapes, one class), the sigmoid class score at the demo
position is dominated by the emitted confidence channel. -/
theorem claim_C1_witness :
    ((DetectV8.init oldV8demo true).use_rvc2 = true ∧ 0 < 1 ∧
      sigmoid ((DetectV8.init oldV8demo true).clsRaw xDemo 0 0
          (gidx (fun _ => 1 * 1) 0 (fpair 0 0))) ≤
        (DetectV8.forward (DetectV8.init oldV8demo true) xDemo).1 0 0
          ⟨4, by omega⟩ 0 0) ∧
    ((OBBV8.init oldOBBdemo true).use_rvc2 = true ∧ 0 < 1 ∧
      sigmoid ((OBBV8.init oldOBBdemo true).clsRaw xDemo 0 0
          (gidx (fun _ => 1 * 1) 0 (fpair 0 0))) ≤
        (OBBV8.forward (OBBV8.init oldOBBdemo true) xDemo).1 0 0
          ⟨4, by omega⟩ 0 0) ∧
    ((PoseV8.init oldPoseDemo true).use_rvc2 = true ∧ 0 < 1 ∧
      sigmoid ((PoseV8.init oldPoseDemo true).clsRaw xDemo 0 0
          (gidx (fun _ => 1 * 1) 0 (fpair 0 0))) ≤
        (PoseV8.forward (PoseV8.init oldPoseDemo true) xDemo).1 0 0
          ⟨4, by omega⟩ 0 0) ∧
    ((SegmentV8.init oldSegDemo true).use_rvc2 = true ∧ 0 < 1 ∧
      sigmoid ((SegmentV8.init oldSegDemo true).clsRaw xDemo 0 0
          (gidx (fun _ => 1 * 1) 0 (fpair 0 0))) ≤
        (SegmentV8.forward (SegmentV8.init oldSegDemo true) xDemo).2.1 0 0
          ⟨4, by omega⟩ 0 0) ∧
    ((DetectV6R3.init oldR3demo true).use_rvc2 = true ∧ 0 < 1 ∧
      sigmoid ((DetectV6R3.init oldR3demo true).cls_preds 0
          ((DetectV6R3.init oldR3demo true).cls_convs 0
            ((DetectV6R3.init oldR3demo true).stems 0 (xDemo 0))) 0 0 0 0) ≤
        (DetectV6R3.forward (DetectV6R3.init oldR3demo true) xDemo).1 0 0
          ⟨regOutCh true 0, by omega⟩ 0 0) ∧
    ((DetectV6R4s.init oldR4sDemo true).use_rvc2 = true ∧ 0 < 1 ∧
      sigmoid ((DetectV6R4s.init oldR4sDemo true).cls_preds 0
          ((DetectV6R4s.init oldR4sDemo true).cls_convs 0
            ((DetectV6R4s.init oldR4sDemo true).stems 0 (xDemo 0))) 0 0 0 0) ≤
        (DetectV6R4s.forward (DetectV6R4s.init oldR4sDemo true) xDemo).1 0 0
          ⟨4, by omega⟩ 0 0) ∧
    ((DetectV6R4m.init oldR4mDemo true).use_rvc2 = true ∧ 0 < 1 ∧
      sigmoid ((DetectV6R4m.init oldR4mDemo true).cls_preds 0
          ((DetectV6R4m.init oldR4mDemo true).cls_convs 0
            ((DetectV6R4m.init oldR4mDemo true).stems 0 (xDemo 0))) 0 0 0 0) ≤
        (DetectV6R4m.forward (DetectV6R4m.init oldR4mDemo true) xDemo).1 0 0
          ⟨regOutCh true 0, by omega⟩ 0 0) :=
  ⟨⟨rfl, Nat.one_pos,
    (claim_C1.1 1 1 1 1 (fun _ => 1) (fun _ => 1) (fun _ => 1)
      (DetectV8.init oldV8demo true) xDemo rfl Nat.one_pos 0 0 0 0).2.1 0⟩,
   ⟨rfl, Nat.one_pos,
    (claim_C1.2.1 1 1 1 1 1 (fun _ => 1) (fun _ => 1) (fun _ => 1)
      (OBBV8.init oldOBBdemo true) xDemo rfl Nat.one_pos 0 0 0 0).2.1 0⟩,
   ⟨rfl, Nat.one_pos,
    (claim_C1.2.2.1 1 1 1 1 1 2 (fun _ => 1) (fun _ => 1) (fun _ => 1)
      (PoseV8.init oldPoseDemo true) xDemo rfl Nat.one_pos 0 0 0 0).2.1 0⟩,
   ⟨rfl, Nat.one_pos,
    (claim_C1.2.2.2.1 1 1 1 1 1 1 1 1 (fun _ => 1) (fun _ => 1) (fun _ => 1)
      (SegmentV8.init oldSegDemo true) xDemo rfl Nat.one_pos 0 0 0 0).2.1 0⟩,
   ⟨rfl, Nat.one_pos,
    (claim_C1.2.2.2.2.1 1 1 1 0 true (fun _ => 1) (fun _ => 1) (fun _ => 1)
      (fun _ => 1) (fun _ => 1) (fun _ => 1)
      (DetectV6R3.init oldR3demo true) xDemo rfl Nat.one_pos 0 0 0 0).2.1 0⟩,
   ⟨rfl, Nat.one_pos,
    (claim_C1.2.2.2.2.2.1 1 1 1 (fun _ => 1) (fun _ => 1) (fun _ => 1)
      (fun _ => 1) (fun _ => 1) (fun _ => 1) (fun _ => 4)
      (DetectV6R4s.init oldR4sDemo true) xDemo rfl Nat.one_pos 0 0 0 0).2.1 0⟩,
   ⟨rfl, Nat.one_pos,
    (claim_C1.2.2.2.2.2.2 1 1 1 0 true (fun _ => 1) (fun _ => 1) (fun _ => 1)
      (fun _ => 1) (fun _ => 1) (fun _ => 1)
      (DetectV6R4m.init oldR4mDemo true) xDemo rfl Nat.one_pos 0 0 0 0).2.1 0⟩⟩

end Heads

